import Mathlib

/-!
Verification of the Avnet azure-sphere-samples glue code: the IoT Connect
cloud-envelope adapter (`iotConnect.c`) and the M4 intercore dispatch table
(`m4_support.c`), shallowly embedded in Lean 4.

The JSON library (parson) is an external collaborator of the original code;
it is modelled here by a small executable recursive-descent parser over
`List Char` producing the `Json` inductive below.
-/

set_option maxRecDepth 10000

/-- Left curly brace character (written via its code point). -/
def lbraceC : Char := Char.ofNat 123

/-- Right curly brace character (written via its code point). -/
def rbraceC : Char := Char.ofNat 125

/-- Left square bracket character. -/
def lbracketC : Char := '['

/-- Right square bracket character. -/
def rbracketC : Char := ']'

/-- JSON values as produced by the modelled parser. -/
inductive Json where
  | null : Json
  | bool (b : Bool) : Json
  | num (n : Int) : Json
  | str (s : String) : Json
  | arr (elems : List Json) : Json
  | obj (fields : List (String × Json)) : Json

/-- JSON insignificant whitespace. -/
def isWsChar (c : Char) : Bool :=
  c = ' ' || c = Char.ofNat 9 || c = Char.ofNat 10 || c = Char.ofNat 13

/-- Drop leading JSON whitespace. -/
def skipWs (cs : List Char) : List Char := cs.dropWhile isWsChar

/-- Decimal digit test. -/
def isDigitChar (c : Char) : Bool := '0' ≤ c && c ≤ '9'

/-- Characters that may occur inside a JSON numeric literal. -/
def isNumChar (c : Char) : Bool :=
  isDigitChar c || c = '-' || c = '+' || c = '.' || c = 'e' || c = 'E'

/-- Resolve a single-character JSON escape. -/
def unescapeChar (c : Char) : Option Char :=
  if c = '"' then some '"'
  else if c = '\\' then some '\\'
  else if c = '/' then some '/'
  else if c = 'n' then some (Char.ofNat 10)
  else if c = 't' then some (Char.ofNat 9)
  else if c = 'r' then some (Char.ofNat 13)
  else if c = 'b' then some (Char.ofNat 8)
  else if c = 'f' then some (Char.ofNat 12)
  else none

/-- Parse the body of a JSON string (after the opening quote), returning the
decoded characters and the input remaining after the closing quote. -/
def parseStringBody : List Char → Option (List Char × List Char)
  | [] => none
  | c :: rest =>
    if c = '"' then some ([], rest)
    else if c = '\\' then
      match rest with
      | [] => none
      | e :: rest2 =>
        match unescapeChar e with
        | none => none
        | some ec =>
          match parseStringBody rest2 with
          | none => none
          | some (s, r) => some (ec :: s, r)
    else
      match parseStringBody rest with
      | none => none
      | some (s, r) => some (c :: s, r)

/-- Digits to a natural number, most significant first. -/
def natOfDigits : List Char → Nat → Nat
  | [], acc => acc
  | c :: rest, acc => natOfDigits rest (acc * 10 + (c.toNat - 48))

/-- One or more decimal digits. -/
def digits1 (cs : List Char) : Bool := !cs.isEmpty && cs.all isDigitChar

/-- Exponent part after the `e`/`E` marker: optional sign then digits. -/
def checkExp : List Char → Bool
  | '+' :: rest => digits1 rest
  | '-' :: rest => digits1 rest
  | rest => digits1 rest

/-- A whole exponent part including the `e`/`E` marker. -/
def checkExpStart : List Char → Bool
  | c :: rest => (c = 'e' || c = 'E') && checkExp rest
  | [] => false

/-- Optional fraction and exponent after the integer part. -/
def checkFracExp : List Char → Bool
  | [] => true
  | '.' :: rest =>
    let ds := rest.takeWhile isDigitChar
    let r := rest.dropWhile isDigitChar
    !ds.isEmpty && (r.isEmpty || checkExpStart r)
  | r => checkExpStart r

/-- Validate an unsigned numeric literal and return its integer part. -/
def checkNum (cs : List Char) : Option Nat :=
  let ds := cs.takeWhile isDigitChar
  let rest := cs.dropWhile isDigitChar
  if ds.isEmpty then none
  else if checkFracExp rest then some (natOfDigits ds 0) else none

/-- Validate a signed numeric literal and return its integer part. -/
def intPartVal : List Char → Option Int
  | '-' :: rest => (checkNum rest).map (fun n => -(n : Int))
  | ds => (checkNum ds).map (fun n => (n : Int))

/-- Parse a JSON number greedily: take the longest run of number characters,
then validate it. -/
def parseNum (cs : List Char) : Option (Json × List Char) :=
  match intPartVal (cs.takeWhile isNumChar) with
  | some n => some (Json.num n, cs.dropWhile isNumChar)
  | none => none

mutual

/-- Parse one JSON value.  Fuel decreases on every recursive call. -/
def parseVal : Nat → List Char → Option (Json × List Char)
  | 0, _ => none
  | Nat.succ f, cs =>
    match skipWs cs with
    | [] => none
    | c :: rest =>
      if c = '"' then
        match parseStringBody rest with
        | some (s, r) => some (Json.str (String.mk s), r)
        | none => none
      else if c = lbracketC then
        match skipWs rest with
        | c2 :: r2 =>
          if c2 = rbracketC then some (Json.arr [], r2)
          else
            match parseVal f (c2 :: r2) with
            | some (v, r) => parseArrTail f [v] r
            | none => none
        | [] => none
      else if c = lbraceC then
        match skipWs rest with
        | c2 :: r2 =>
          if c2 = rbraceC then some (Json.obj [], r2)
          else
            match parseMember f (c2 :: r2) with
            | some (kv, r) => parseObjTail f [kv] r
            | none => none
        | [] => none
      else if c = 't' then
        match rest with
        | 'r' :: 'u' :: 'e' :: r => some (Json.bool true, r)
        | _ => none
      else if c = 'f' then
        match rest with
        | 'a' :: 'l' :: 's' :: 'e' :: r => some (Json.bool false, r)
        | _ => none
      else if c = 'n' then
        match rest with
        | 'u' :: 'l' :: 'l' :: r => some (Json.null, r)
        | _ => none
      else parseNum (c :: rest)

/-- Parse one `"key" : value` object member. -/
def parseMember : Nat → List Char → Option ((String × Json) × List Char)
  | 0, _ => none
  | Nat.succ f, cs =>
    match skipWs cs with
    | c :: rest =>
      if c = '"' then
        match parseStringBody rest with
        | some (k, r1) =>
          match skipWs r1 with
          | ':' :: r2 =>
            match parseVal f r2 with
            | some (v, r) => some ((String.mk k, v), r)
            | none => none
          | _ => none
        | none => none
      else none
    | [] => none

/-- Parse the continuation of an array after at least one element. -/
def parseArrTail : Nat → List Json → List Char → Option (Json × List Char)
  | 0, _, _ => none
  | Nat.succ f, acc, cs =>
    match skipWs cs with
    | c :: rest =>
      if c = ',' then
        match parseVal f rest with
        | some (v, r) => parseArrTail f (acc ++ [v]) r
        | none => none
      else if c = rbracketC then some (Json.arr acc, rest)
      else none
    | [] => none

/-- Parse the continuation of an object after at least one member. -/
def parseObjTail : Nat → List (String × Json) → List Char → Option (Json × List Char)
  | 0, _, _ => none
  | Nat.succ f, acc, cs =>
    match skipWs cs with
    | c :: rest =>
      if c = ',' then
        match parseMember f rest with
        | some (kv, r) => parseObjTail f (acc ++ [kv]) r
        | none => none
      else if c = rbraceC then some (Json.obj acc, rest)
      else none
    | [] => none

end

/-- Model of parson's `json_parse_string`: parse a whole string as one JSON
value, tolerating trailing whitespace only. -/
def json_parse_string (s : String) : Option Json :=
  match parseVal (s.length + 1) s.data with
  | some (v, rest) => if skipWs rest = [] then some v else none
  | none => none

/-! ## Model of the parson object accessors used by `iotConnect.c`

Each accessor is NULL-tolerant exactly like parson: a `none` object argument
makes `has_value` report false and the getters return `none` (NULL).
-/

/-- First binding of a key in an object's field list (parson keeps the first
match on lookup). -/
def jlookup (fields : List (String × Json)) (k : String) : Option Json :=
  (fields.find? (fun kv => kv.1 = k)).map (fun kv => kv.2)

/-- Model of `json_value_get_object`: NULL unless the value is an object. -/
def json_value_get_object : Option Json → Option (List (String × Json))
  | some (Json.obj fields) => some fields
  | _ => none

/-- Model of `json_object_dotget_object o k` for a plain (undotted) key. -/
def json_object_dotget_object (o : Option (List (String × Json))) (k : String) :
    Option (List (String × Json)) :=
  match o with
  | none => none
  | some fields =>
    match jlookup fields k with
    | some (Json.obj inner) => some inner
    | _ => none

/-- Model of `json_object_has_value` (0 for a NULL object or missing key). -/
def json_object_has_value (o : Option (List (String × Json))) (k : String) : Bool :=
  match o with
  | none => false
  | some fields => (jlookup fields k).isSome

/-- Model of `json_object_get_string`: NULL unless the key maps to a string. -/
def json_object_get_string (o : Option (List (String × Json))) (k : String) :
    Option String :=
  match o with
  | none => none
  | some fields =>
    match jlookup fields k with
    | some (Json.str s) => some s
    | _ => none

/-! ## Cloud Envelope Adapter (`iotConnect.c`) -/

/-- Modelled from the spec: length of a device-group/device GUID string
(`GUID_LEN` lives in the missing header `iotConnect.h`); a GUID such as
`b3a7d542-20ad-4397-abf3-5d7ec539fba6` has 36 characters. -/
def GUID_LEN : Nat := 36

/-- Modelled from the spec: length of the session-id string (`SID_LEN` lives in
the missing header `iotConnect.h`); the code comment shows a 64-character
string and `receiveMessageCallback` declares `char newSIDString[64 + 1]`. -/
def SID_LEN : Nat := 64

/-- `strncpy(dst, src, n)` into a zero-initialised / NUL-terminated buffer:
the stored C string value is the first `n` characters of the source. -/
def strTake (n : Nat) (s : String) : String := String.mk (s.data.take n)

/-- The adapter's session state (`iotConnect.c` file-scope variables), plus the
durable single-slot storage and a trace of the durable writes performed. -/
structure CloudState where
  dtgGUID : String
  gGUID : String
  sidString : String
  IoTCConnected : Bool
  durableSID : String
  sidWrites : List String

/-- `iotConnect.c` startup state: empty GUID/sid buffers, not connected. -/
def iotcInitialState : CloudState :=
  { dtgGUID := "", gGUID := "", sidString := "", IoTCConnected := false,
    durableSID := "", sidWrites := [] }

/-- The `"dtg"` block of `receiveMessageCallback`: if the key is present, copy
its string value (truncated to `GUID_LEN`) into `dtgGUID`.  A present
non-string value makes `json_object_get_string` return NULL and the original
`strncpy` dereference it (undefined behaviour), modelled as `none`. -/
def stepDtg (d : Option (List (String × Json))) (st : CloudState) : Option CloudState :=
  if json_object_has_value d "dtg" then
    match json_object_get_string d "dtg" with
    | some s => some { st with dtgGUID := strTake GUID_LEN s }
    | none => none
  else some st

/-- The `"sid"` block of `receiveMessageCallback`: copy the received sid
(truncated to `SID_LEN`); if it differs from the stored one
(`strncmp(..., SID_LEN)`), write it to the mutable file and update the
in-memory copy. -/
def stepSid (d : Option (List (String × Json))) (st : CloudState) : Option CloudState :=
  if json_object_has_value d "sid" then
    match json_object_get_string d "sid" with
    | some s =>
      let newSIDString := strTake SID_LEN s
      if newSIDString ≠ strTake SID_LEN st.sidString then
        some { st with sidString := newSIDString, durableSID := newSIDString,
                       sidWrites := st.sidWrites ++ [newSIDString] }
      else some st
    | none => none
  else some st

/-- The `"g"` block of `receiveMessageCallback`: like `"dtg"`, into `gGUID`. -/
def stepG (d : Option (List (String × Json))) (st : CloudState) : Option CloudState :=
  if json_object_has_value d "g" then
    match json_object_get_string d "g" with
    | some s => some { st with gGUID := strTake GUID_LEN s }
    | none => none
  else some st

/-- The `rootObject`/`dProperties` computation of `receiveMessageCallback`
(iotConnect.c:217-220). -/
def dPropertiesOf (rootMessage : Json) : Option (List (String × Json)) :=
  json_object_dotget_object (json_value_get_object (some rootMessage)) "d"

/-- `receiveMessageCallback` (iotConnect.c:161-339): parse the incoming cloud
message; on parse failure jump to cleanup leaving all state untouched; on
success process the `"dtg"`, `"sid"` and `"g"` keys under the `"d"` object and
finally set `IoTCConnected := true`.  `none` models the undefined behaviour of
`strncpy` on a NULL `json_object_get_string` result. -/
def receiveMessageCallback (st : CloudState) (msg : String) : Option CloudState :=
  match json_parse_string msg with
  | none => some st
  | some rootMessage =>
    match stepDtg (dPropertiesOf rootMessage) st with
    | none => none
    | some st1 =>
      match stepSid (dPropertiesOf rootMessage) st1 with
      | none => none
      | some st2 =>
        match stepG (dPropertiesOf rootMessage) st2 with
        | none => none
        | some st3 => some { st3 with IoTCConnected := true }

/-- Deliver a sequence of cloud messages to `receiveMessageCallback`. -/
def processMessages (st : CloudState) (msgs : List String) : Option CloudState :=
  match msgs with
  | [] => some st
  | m :: rest =>
    match receiveMessageCallback st m with
    | none => none
    | some st1 => processMessages st1 rest

/-- Modelled from the spec: `IOTC_TELEMETRY_OVERHEAD` lives in the missing
header `iotConnect.h`; the spec calls it the fixed envelope overhead of the
computed worst-case size.  The worst case envelope adds 49 format characters,
a sid of up to `SID_LEN`, a GUID of up to `GUID_LEN`, a 28-character
timestamp and the terminating NUL: 49 + 64 + 36 + 28 + 1 = 178. -/
def IOTC_TELEMETRY_OVERHEAD : Nat := 178

/-- The `IoTCTelemetryJson` format string of `FormatTelemetryForIoTConnect`
applied to its four arguments. -/
def IoTCTelemetryJson (sid dtg dt original : String) : String :=
  "\x7b\"sid\":\"" ++ sid ++ "\",\"dtg\":\"" ++ dtg ++ "\",\"mt\": 0,\"dt\": \"" ++ dt ++
    "\",\"d\":[\x7b\"d\":" ++ original ++ "\x7d]\x7d"

/-- `FormatTelemetryForIoTConnect` (iotConnect.c:388-446).  `dt` is the
timestamp produced by `time`/`strftime` plus the fixed `.0000000Z` filler
(external clock, passed as a parameter).  Returns the C result, the value of
the caller's output buffer after the call, and the session state after the
call.  `snprintf` is bounded by `maxModifiedMessageSize`, so the written
C string is the envelope truncated to `maxModifiedMessageSize - 1`. -/
def FormatTelemetryForIoTConnect (st : CloudState) (dt : String)
    (originalJsonMessage : String) (bufferIn : String) (modifiedBufferSize : Nat) :
    Bool × String × CloudState :=
  if !st.IoTCConnected then (false, bufferIn, st)
  else
    let maxModifiedMessageSize := originalJsonMessage.length + IOTC_TELEMETRY_OVERHEAD
    if maxModifiedMessageSize > modifiedBufferSize then (false, bufferIn, st)
    else
      (true,
        strTake (maxModifiedMessageSize - 1)
          (IoTCTelemetryJson st.sidString st.dtgGUID dt originalJsonMessage),
        st)

/-! ## Intercore Dispatch Table (`m4_support.c`) -/

/-- Modelled from the spec: first value of the `INTER_CORE_CMD` enum listed in
the `genericM4Handler` doc comment (m4_support.c:291-298); the wire encoding
(a small integer enum, one byte at offset 0 of the message) comes from the
spec's intercore wire format, the header being missing from the sources. -/
def IC_UNKNOWN : Nat := 0

/-- `INTER_CORE_CMD` heartbeat tag. -/
def IC_HEARTBEAT : Nat := 1

/-- `INTER_CORE_CMD` read-sensor (raw data) tag. -/
def IC_READ_SENSOR : Nat := 2

/-- `INTER_CORE_CMD` read-sensor-respond-with-telemetry tag. -/
def IC_READ_SENSOR_RESPOND_WITH_TELEMETRY : Nat := 3

/-- `INTER_CORE_CMD` set-sample-rate tag. -/
def IC_SET_SAMPLE_RATE : Nat := 4

/-- One `m4_support_t` descriptor.  The four optional behaviour hooks are
external function pointers; the model records only whether each is NULL. -/
structure m4_support_t where
  m4Name : String
  m4RtComponentID : String
  m4Fd : Int
  hasRawDataHandler : Bool
  hasTelemetryHandler : Bool
  hasCleanupHandler : Bool

/-- The file-scope state of `m4_support.c` that `genericM4Handler` can reach:
the descriptor table, the IoT Connect connected flag read under
`USE_IOT_CONNECT`, the GPS cache and the process-wide last-error code.
`lastLat`/`lastLon` are C doubles, carried as abstract values (never computed with in
the embedded paths). -/
structure M4State where
  m4Array : List m4_support_t
  iotcConnected : Bool
  lastLat : Int
  lastLon : Int
  exitCode : Int

/-- Preprocessor configuration of the build (`USE_IOT_CONNECT`,
`IOT_HUB_APPLICATION`). -/
structure BuildConfig where
  useIotConnect : Bool
  iotHubApplication : Bool

/-- Externally visible actions of `genericM4Handler`: log lines, raw-data hook
invocations and telemetry handed to the forwarding collaborator
(`SendTelemetry`). -/
inductive M4Effect where
  | logRx (payload : String)
  | logParseWarning
  | logSampleRate (rate : Nat)
  | rawHook (idx : Nat) (msg : List Nat)
  | logHeartbeat
  | logUnknownWarning
  | sendTelemetry (payload : String)
  | sendGpsSubstitute

/-- Bytes of the receive buffer read as a NUL-terminated C string. -/
def cString (bs : List Nat) : String :=
  String.mk ((bs.takeWhile (fun b => b ≠ 0)).map Char.ofNat)

/-- The hard-coded `noGpsDataJson` sentinel of m4_support.c:350. -/
def noGpsDataJson : String :=
  "\x7b\"Tracking\":\x7b\"lat\":0.00000,\"lon\":0.00000,\"alt\": 0.00\x7d\x7d"

/-- Modelled from the spec: the `sensorSampleRate` field is the unsigned
32-bit value following the one-byte command tag (little-endian MT3620). -/
def sampleRateOf (bs : List Nat) : Nat :=
  bs.getD 1 0 + 256 * (bs.getD 2 0 + 256 * (bs.getD 3 0 + 256 * bs.getD 4 0))

/-- `findArrayIndexByFd` (m4_support.c:531-538): index of the first descriptor
whose socket handle equals `fd`; `none` models the -1 "not found" result. -/
def findArrayIndexByFd (arr : List m4_support_t) (fd : Int) : Option Nat :=
  arr.findIdx? (fun e => e.m4Fd = fd)

/-- `genericM4Handler` (m4_support.c:301-418): dispatch one received intercore
message by its command tag.  `rxBuf` is the received byte block (the code
NUL-terminates it before reading the telemetry payload).  Returns the state
after the call and the trace of externally visible effects. -/
def genericM4Handler (cfg : BuildConfig) (st : M4State) (fd : Int)
    (rxBuf : List Nat) : M4State × List M4Effect :=
  let cmd := rxBuf.headD 0
  if cmd = IC_READ_SENSOR_RESPOND_WITH_TELEMETRY then
    let payload := cString (rxBuf.drop 1)
    match json_parse_string payload with
    | some _ =>
      let fx :=
        if cfg.useIotConnect && !st.iotcConnected then []
        else if cfg.iotHubApplication then
          if payload = noGpsDataJson then [M4Effect.sendGpsSubstitute]
          else [M4Effect.sendTelemetry payload]
        else []
      (st, M4Effect.logRx payload :: fx)
    | none => (st, [M4Effect.logParseWarning])
  else if cmd = IC_SET_SAMPLE_RATE then
    (st, [M4Effect.logSampleRate (sampleRateOf rxBuf)])
  else if cmd = IC_READ_SENSOR then
    match findArrayIndexByFd st.m4Array fd with
    | some i =>
      match st.m4Array.get? i with
      | some entry =>
        if entry.hasRawDataHandler then (st, [M4Effect.rawHook i rxBuf]) else (st, [])
      | none => (st, [])
    | none => (st, [])
  else if cmd = IC_HEARTBEAT then (st, [M4Effect.logHeartbeat])
  else (st, [M4Effect.logUnknownWarning])

/-- The payload region as the claims describe it: the bytes following the
one-byte command tag and the unsigned 32-bit sample-rate field, read as a
NUL-terminated string. -/
def claimPayload (bs : List Nat) : String := cString (bs.drop 5)

/-- Modelled from the spec: the MT3620 hardware supports at most two real-time
(M4) cores, so `MAX_REAL_TIME_APPS` (missing header `m4_support.h`) is 2. -/
def MAX_REAL_TIME_APPS : Nat := 2

/-- `ExitCode_Success`. -/
def ExitCode_Success : Int := 0

/-- Modelled from the spec: the configuration-error exit code returned when
the descriptor table exceeds the platform maximum; its concrete value lives in
a missing header, only its distinctness from `ExitCode_Success` matters. -/
def ExitCode_Init_Invalid_Number_Real_Time_Apps : Int := 20

/-- Run the per-descriptor init outcomes in order, stopping at the first
failure; returns the overall result and how many inits were attempted. -/
def runInits : List Int → Int × Nat
  | [] => (ExitCode_Success, 0)
  | r :: rs =>
    if r ≠ ExitCode_Success then (r, 1)
    else
      let p := runInits rs
      (p.1, p.2 + 1)

/-- `InitM4Interfaces` (m4_support.c:183-202).  The init outcome of each
descriptor's `m4InitHandler` (socket open, timeout, event registration — all
external) is supplied as a list, one entry per descriptor.  Returns the
routine's result and the number of descriptor inits attempted. -/
def InitM4Interfaces (initResults : List Int) : Int × Nat :=
  if initResults.length > MAX_REAL_TIME_APPS then
    (ExitCode_Init_Invalid_Number_Real_Time_Apps, 0)
  else runInits initResults

/-- A concrete two-descriptor table mirroring `m4Array[]` (m4_support.c:113-137)
with sockets opened as 8 and 9. -/
def m4ExampleState : M4State :=
  { m4Array :=
      [{ m4Name := "AvnetLightSensor"
         m4RtComponentID := "b2cec904-1c60-411b-8f62-5ffe9684b8ce"
         m4Fd := 8
         hasRawDataHandler := true
         hasTelemetryHandler := true
         hasCleanupHandler := true },
       { m4Name := "AvnetGroveGPS"
         m4RtComponentID := "592b46b7-5552-4c58-9163-9185f46b96aa"
         m4Fd := 9
         hasRawDataHandler := true
         hasTelemetryHandler := true
         hasCleanupHandler := true }]
    iotcConnected := true
    lastLat := 0
    lastLon := 0
    exitCode := 0 }

/-! ## Parser lemmas -/

theorem takeWhile_append_dropWhile_eq (p : Char → Bool) (cs : List Char) :
    cs.takeWhile p ++ cs.dropWhile p = cs := by
  induction cs with
  | nil => rfl
  | cons c cr ih =>
    by_cases hc : p c
    · simp only [List.takeWhile_cons, List.dropWhile_cons, hc, if_true, List.cons_append, ih]
    · rw [List.takeWhile_cons, if_neg hc, List.dropWhile_cons, if_neg hc, List.nil_append]

theorem dropWhile_nil_append (p : Char → Bool) (cs ext : List Char)
    (h : cs.dropWhile p = []) : (cs ++ ext).dropWhile p = ext.dropWhile p := by
  induction cs with
  | nil => rfl
  | cons c cr ih =>
    by_cases hc : p c
    · rw [List.dropWhile_cons, if_pos hc] at h
      rw [List.cons_append, List.dropWhile_cons, if_pos hc]
      exact ih h
    · rw [List.dropWhile_cons, if_neg hc] at h
      exact absurd h (by simp)

theorem takeWhile_nil_append (p : Char → Bool) (cs ext : List Char)
    (h : cs.dropWhile p = []) : (cs ++ ext).takeWhile p = cs ++ ext.takeWhile p := by
  induction cs with
  | nil => rfl
  | cons c cr ih =>
    by_cases hc : p c
    · rw [List.dropWhile_cons, if_pos hc] at h
      rw [List.cons_append, List.takeWhile_cons, if_pos hc, ih h, List.cons_append]
    · rw [List.dropWhile_cons, if_neg hc] at h
      exact absurd h (by simp)

theorem dropWhile_cons_append (p : Char → Bool) (cs ext : List Char) (d : Char)
    (dr : List Char) (h : cs.dropWhile p = d :: dr) :
    (cs ++ ext).dropWhile p = d :: (dr ++ ext) := by
  induction cs with
  | nil =>
    simp only [List.dropWhile_nil] at h
    exact absurd h (by simp)
  | cons c cr ih =>
    by_cases hc : p c
    · rw [List.dropWhile_cons, if_pos hc] at h
      rw [List.cons_append, List.dropWhile_cons, if_pos hc]
      exact ih h
    · rw [List.dropWhile_cons, if_neg hc] at h
      rw [List.cons_append, List.dropWhile_cons, if_neg hc]
      rw [List.cons_eq_cons] at h
      exact h.1 ▸ (by rw [h.2])

theorem takeWhile_cons_stable_append (p : Char → Bool) (cs ext : List Char) (d : Char)
    (dr : List Char) (h : cs.dropWhile p = d :: dr) :
    (cs ++ ext).takeWhile p = cs.takeWhile p := by
  induction cs with
  | nil =>
    simp only [List.dropWhile_nil] at h
    exact absurd h (by simp)
  | cons c cr ih =>
    by_cases hc : p c
    · rw [List.dropWhile_cons, if_pos hc] at h
      rw [List.cons_append, List.takeWhile_cons, if_pos hc, List.takeWhile_cons, if_pos hc,
        ih h]
    · rw [List.cons_append, List.takeWhile_cons, if_neg hc, List.takeWhile_cons, if_neg hc]

/-- A string body parse that succeeded is unaffected by appending input after
the closing quote. -/
theorem parseStringBody_append (ext : List Char) :
    ∀ cs s r, parseStringBody cs = some (s, r) →
      parseStringBody (cs ++ ext) = some (s, r ++ ext) := by
  intro cs
  induction cs using parseStringBody.induct with
  | case1 =>
    intro s r h
    rw [parseStringBody.eq_def] at h
    simp at h
  | case2 rest2 =>
    intro s r h
    rw [parseStringBody.eq_def] at h
    simp at h
    rw [List.cons_append, parseStringBody.eq_def]
    simp [h.1.symm, h.2.symm]
  | case3 hne =>
    intro s r h
    rw [parseStringBody.eq_def] at h
    simp at h
  | case4 e rest2 hu hne =>
    intro s r h
    rw [parseStringBody.eq_def] at h
    simp [hu] at h
  | case5 e rest2 ec hu hp hne ih =>
    intro s r h
    rw [parseStringBody.eq_def] at h
    simp [hu, hp] at h
  | case6 e rest2 ec hu s0 r0 hp hne ih =>
    intro s r h
    rw [parseStringBody.eq_def] at h
    simp only [hu, hp] at h
    simp at h
    rw [List.cons_append, List.cons_append, parseStringBody.eq_def]
    simp only [hu, ih s0 r0 hp]
    simp [h.1.symm, h.2.symm]
  | case7 e rest2 hq hb hp ih =>
    intro s r h
    rw [parseStringBody.eq_def] at h
    simp only [if_neg hq, if_neg hb, hp] at h
    simp at h
  | case8 e rest2 hq hb s0 r0 hp ih =>
    intro s r h
    rw [parseStringBody.eq_def] at h
    simp only [if_neg hq, if_neg hb, hp] at h
    simp at h
    rw [List.cons_append, parseStringBody.eq_def]
    simp only [if_neg hq, if_neg hb, ih s0 r0 hp]
    simp [h.1.symm, h.2.symm]

/-- Characters legal inside a JSON string without escaping (in particular no
quote and no backslash). -/
def cleanChars (cs : List Char) : Bool :=
  cs.all (fun c => !(c = '"' || c = '\\'))

/-- A string of clean characters followed by a closing quote parses to
itself. -/
theorem parseStringBody_clean :
    ∀ (s rest : List Char), cleanChars s = true →
      parseStringBody (s ++ '"' :: rest) = some (s, rest) := by
  intro s
  induction s with
  | nil =>
    intro rest _
    rw [List.nil_append, parseStringBody.eq_def]
    simp
  | cons c cr ih =>
    intro rest hclean
    simp only [cleanChars, List.all_cons, Bool.and_eq_true] at hclean
    have hq : ¬ c = '"' := by
      intro hcq
      simp [hcq] at hclean
    have hb : ¬ c = '\\' := by
      intro hcb
      simp [hcb] at hclean
    rw [List.cons_append, parseStringBody.eq_def]
    simp only [if_neg hq, if_neg hb, ih rest hclean.2]

/-- After a value whose parse consumed everything (`r = []`), appended input
must not start with a number character (the number parser is greedy); after a
value with a non-empty rest, anything may be appended. -/
def extBlocked : List Char → Prop
  | [] => True
  | c :: _ => isNumChar c = false

/-- Side condition for appending `ext` after a parse that left rest `r`. -/
def extOk (r ext : List Char) : Prop := r ≠ [] ∨ extBlocked ext

theorem parseNum_append (cs ext : List Char) (v : Json) (r : List Char)
    (h : parseNum cs = some (v, r)) (hok : extOk r ext) :
    parseNum (cs ++ ext) = some (v, r ++ ext) := by
  unfold parseNum at h ⊢
  cases hd : cs.dropWhile isNumChar with
  | cons d dr =>
    rw [hd] at h
    rw [takeWhile_cons_stable_append isNumChar cs ext d dr hd,
        dropWhile_cons_append isNumChar cs ext d dr hd]
    cases hi : intPartVal (cs.takeWhile isNumChar) with
    | none =>
      rw [hi] at h
      simp at h
    | some n =>
      rw [hi] at h
      simp at h
      obtain ⟨hv, hr⟩ := h
      subst hr
      simp [hv]
  | nil =>
    have hts : cs.takeWhile isNumChar = cs := by
      have hsplit := takeWhile_append_dropWhile_eq isNumChar cs
      rw [hd, List.append_nil] at hsplit
      exact hsplit
    rw [hd] at h
    cases hi : intPartVal (cs.takeWhile isNumChar) with
    | none =>
      rw [hi] at h
      simp at h
    | some n =>
      rw [hi] at h
      simp at h
      obtain ⟨hv, hr⟩ := h
      subst hr
      rw [hts] at hi
      cases ext with
      | nil =>
        simp only [List.append_nil]
        rw [hts, hi]
        simp [hd, hv]
      | cons e es =>
        have hblock : isNumChar e = false := by
          rcases hok with hne | hb
          · exact absurd rfl hne
          · exact hb
        have htw : (cs ++ e :: es).takeWhile isNumChar = cs := by
          rw [takeWhile_nil_append isNumChar cs (e :: es) hd, List.takeWhile_cons,
            hblock]
          simp
        have hdw : (cs ++ e :: es).dropWhile isNumChar = e :: es := by
          rw [dropWhile_nil_append isNumChar cs (e :: es) hd, List.dropWhile_cons,
            hblock]
          simp
        rw [htw, hi, hdw]
        simp [hv]

theorem parseArrTail_nil (f : Nat) (acc : List Json) : parseArrTail f acc [] = none := by
  cases f with
  | zero => rw [parseArrTail.eq_def]
  | succ f => rw [parseArrTail.eq_def]; simp [skipWs]

theorem parseObjTail_nil (f : Nat) (acc : List (String × Json)) :
    parseObjTail f acc [] = none := by
  cases f with
  | zero => rw [parseObjTail.eq_def]
  | succ f => rw [parseObjTail.eq_def]; simp [skipWs]

theorem parseVal_zero (cs : List Char) : parseVal 0 cs = none := by
  rw [parseVal.eq_def]

theorem parseMember_zero (cs : List Char) : parseMember 0 cs = none := by
  rw [parseMember.eq_def]

theorem parseArrTail_zero (acc : List Json) (cs : List Char) :
    parseArrTail 0 acc cs = none := by
  rw [parseArrTail.eq_def]

theorem parseObjTail_zero (acc : List (String × Json)) (cs : List Char) :
    parseObjTail 0 acc cs = none := by
  rw [parseObjTail.eq_def]

theorem skipWs_cons_append (cs ext : List Char) (c : Char) (rest : List Char)
    (h : skipWs cs = c :: rest) : skipWs (cs ++ ext) = c :: (rest ++ ext) :=
  dropWhile_cons_append isWsChar cs ext c rest h

theorem skipWs_nil_append (cs ext : List Char) (h : skipWs cs = []) :
    skipWs (cs ++ ext) = skipWs ext :=
  dropWhile_nil_append isWsChar cs ext h

theorem parseVal_succ (f : Nat) (cs : List Char) :
    parseVal (Nat.succ f) cs =
      match skipWs cs with
      | [] => none
      | c :: rest =>
        if c = '"' then
          match parseStringBody rest with
          | some (s, r) => some (Json.str (String.mk s), r)
          | none => none
        else if c = lbracketC then
          match skipWs rest with
          | c2 :: r2 =>
            if c2 = rbracketC then some (Json.arr [], r2)
            else
              match parseVal f (c2 :: r2) with
              | some (v, r) => parseArrTail f [v] r
              | none => none
          | [] => none
        else if c = lbraceC then
          match skipWs rest with
          | c2 :: r2 =>
            if c2 = rbraceC then some (Json.obj [], r2)
            else
              match parseMember f (c2 :: r2) with
              | some (kv, r) => parseObjTail f [kv] r
              | none => none
          | [] => none
        else if c = 't' then
          match rest with
          | 'r' :: 'u' :: 'e' :: r => some (Json.bool true, r)
          | _ => none
        else if c = 'f' then
          match rest with
          | 'a' :: 'l' :: 's' :: 'e' :: r => some (Json.bool false, r)
          | _ => none
        else if c = 'n' then
          match rest with
          | 'u' :: 'l' :: 'l' :: r => some (Json.null, r)
          | _ => none
        else parseNum (c :: rest) := rfl

theorem parseMember_succ (f : Nat) (cs : List Char) :
    parseMember (Nat.succ f) cs =
      match skipWs cs with
      | c :: rest =>
        if c = '"' then
          match parseStringBody rest with
          | some (k, r1) =>
            match skipWs r1 with
            | ':' :: r2 =>
              match parseVal f r2 with
              | some (v, r) => some ((String.mk k, v), r)
              | none => none
            | _ => none
          | none => none
        else none
      | [] => none := rfl

theorem parseArrTail_succ (f : Nat) (acc : List Json) (cs : List Char) :
    parseArrTail (Nat.succ f) acc cs =
      match skipWs cs with
      | c :: rest =>
        if c = ',' then
          match parseVal f rest with
          | some (v, r) => parseArrTail f (acc ++ [v]) r
          | none => none
        else if c = rbracketC then some (Json.arr acc, rest)
        else none
      | [] => none := rfl

theorem parseObjTail_succ (f : Nat) (acc : List (String × Json)) (cs : List Char) :
    parseObjTail (Nat.succ f) acc cs =
      match skipWs cs with
      | c :: rest =>
        if c = ',' then
          match parseMember f rest with
          | some (kv, r) => parseObjTail f (acc ++ [kv]) r
          | none => none
        else if c = rbraceC then some (Json.obj acc, rest)
        else none
      | [] => none := rfl

theorem parse_append_mono : ∀ f : Nat,
    (∀ cs v r, parseVal f cs = some (v, r) → ∀ g ext, f ≤ g → extOk r ext →
      parseVal g (cs ++ ext) = some (v, r ++ ext)) ∧
    (∀ cs kv r, parseMember f cs = some (kv, r) → ∀ g ext, f ≤ g → extOk r ext →
      parseMember g (cs ++ ext) = some (kv, r ++ ext)) ∧
    (∀ acc cs v r, parseArrTail f acc cs = some (v, r) → ∀ g ext, f ≤ g → extOk r ext →
      parseArrTail g acc (cs ++ ext) = some (v, r ++ ext)) ∧
    (∀ acc cs v r, parseObjTail f acc cs = some (v, r) → ∀ g ext, f ≤ g → extOk r ext →
      parseObjTail g acc (cs ++ ext) = some (v, r ++ ext)) := by
  intro f
  induction f with
  | zero =>
    refine ⟨?_, ?_, ?_, ?_⟩
    · intro cs v r h
      rw [parseVal_zero] at h
      exact absurd h (by simp)
    · intro cs kv r h
      rw [parseMember_zero] at h
      exact absurd h (by simp)
    · intro acc cs v r h
      rw [parseArrTail_zero] at h
      exact absurd h (by simp)
    · intro acc cs v r h
      rw [parseObjTail_zero] at h
      exact absurd h (by simp)
  | succ f ih =>
    obtain ⟨ihV, ihM, ihA, ihO⟩ := ih
    refine ⟨?_, ?_, ?_, ?_⟩
    · -- parseVal
      intro cs v r h g ext hle hok
      cases g with
      | zero => exact absurd hle (by omega)
      | succ g2 =>
        have hg : f ≤ g2 := by omega
        rw [parseVal_succ] at h
        rw [parseVal_succ]
        cases hsk : skipWs cs with
        | nil =>
          rw [hsk] at h
          simp at h
        | cons c rest =>
          rw [hsk] at h
          rw [skipWs_cons_append cs ext c rest hsk]
          by_cases hq : c = '"'
          · simp only [hq, if_pos rfl] at h ⊢
            cases hps : parseStringBody rest with
            | none =>
              rw [hps] at h
              simp at h
            | some sr =>
              obtain ⟨s, r1⟩ := sr
              rw [hps] at h
              replace h : some (Json.str (String.mk s), r1) = some (v, r) := h
              injection h with h1
              injection h1 with hv hr
              subst hv
              subst hr
              rw [parseStringBody_append ext rest s r1 hps]
              rfl
          · by_cases hlb : c = lbracketC
            · simp only [hq, hlb, if_neg, if_pos rfl] at h ⊢
              simp only [show ¬ (lbracketC = '"') from by decide, if_false] at h ⊢
              cases hsk2 : skipWs rest with
              | nil =>
                rw [hsk2] at h
                simp at h
              | cons c2 r2 =>
                rw [hsk2] at h
                rw [skipWs_cons_append rest ext c2 r2 hsk2]
                by_cases hrb : c2 = rbracketC
                · simp only [hrb, if_pos rfl] at h ⊢
                  replace h : some (Json.arr [], r2) = some (v, r) := h
                  injection h with h1
                  injection h1 with hv hr
                  subst hv
                  subst hr
                  rfl
                · simp only [if_neg hrb] at h ⊢
                  cases hpv : parseVal f (c2 :: r2) with
                  | none =>
                    rw [hpv] at h
                    simp at h
                  | some vr =>
                    obtain ⟨v1, r1⟩ := vr
                    rw [hpv] at h
                    replace h : parseArrTail f [v1] r1 = some (v, r) := h
                    have hr1 : r1 ≠ [] := by
                      intro hnil
                      rw [hnil, parseArrTail_nil] at h
                      exact absurd h (by simp)
                    have hIV := ihV (c2 :: r2) v1 r1 hpv g2 ext hg (Or.inl hr1)
                    rw [List.cons_append] at hIV
                    rw [hIV]
                    exact ihA [v1] r1 v r h g2 ext hg hok
            · by_cases hob : c = lbraceC
              · simp only [hq, hlb, hob, if_neg, if_pos rfl] at h ⊢
                simp only [show ¬ (lbraceC = '"') from by decide,
                  show ¬ (lbraceC = lbracketC) from by decide, if_false] at h ⊢
                cases hsk2 : skipWs rest with
                | nil =>
                  rw [hsk2] at h
                  simp at h
                | cons c2 r2 =>
                  rw [hsk2] at h
                  rw [skipWs_cons_append rest ext c2 r2 hsk2]
                  by_cases hrb : c2 = rbraceC
                  · simp only [hrb, if_pos rfl] at h ⊢
                    replace h : some (Json.obj [], r2) = some (v, r) := h
                    injection h with h1
                    injection h1 with hv hr
                    subst hv
                    subst hr
                    rfl
                  · simp only [if_neg hrb] at h ⊢
                    cases hpm : parseMember f (c2 :: r2) with
                    | none =>
                      rw [hpm] at h
                      simp at h
                    | some kvr =>
                      obtain ⟨kv, r1⟩ := kvr
                      rw [hpm] at h
                      replace h : parseObjTail f [kv] r1 = some (v, r) := h
                      have hr1 : r1 ≠ [] := by
                        intro hnil
                        rw [hnil, parseObjTail_nil] at h
                        exact absurd h (by simp)
                      have hIM := ihM (c2 :: r2) kv r1 hpm g2 ext hg (Or.inl hr1)
                      rw [List.cons_append] at hIM
                      rw [hIM]
                      exact ihO [kv] r1 v r h g2 ext hg hok
              · by_cases htc : c = 't'
                · subst htc
                  simp [lbracketC, lbraceC] at h ⊢
                  split at h
                  · rename_i rr
                    replace h : some (Json.bool true, rr) = some (v, r) := h
                    injection h with h1
                    injection h1 with hv hr
                    subst hv
                    subst hr
                    simp
                  · exact absurd h (by simp)
                · by_cases hfc : c = 'f'
                  · subst hfc
                    simp [lbracketC, lbraceC] at h ⊢
                    split at h
                    · rename_i rr
                      replace h : some (Json.bool false, rr) = some (v, r) := h
                      injection h with h1
                      injection h1 with hv hr
                      subst hv
                      subst hr
                      simp
                    · exact absurd h (by simp)
                  · by_cases hnc : c = 'n'
                    · subst hnc
                      simp [lbracketC, lbraceC] at h ⊢
                      split at h
                      · rename_i rr
                        replace h : some (Json.null, rr) = some (v, r) := h
                        injection h with h1
                        injection h1 with hv hr
                        subst hv
                        subst hr
                        simp
                      · exact absurd h (by simp)
                    · simp only [if_neg hq, if_neg hlb, if_neg hob, if_neg htc,
                        if_neg hfc, if_neg hnc] at h ⊢
                      replace h : parseNum (c :: rest) = some (v, r) := h
                      have hres := parseNum_append (c :: rest) ext v r h hok
                      rw [List.cons_append] at hres
                      exact hres
    · -- parseMember
      intro cs kv r h g ext hle hok
      cases g with
      | zero => exact absurd hle (by omega)
      | succ g2 =>
        have hg : f ≤ g2 := by omega
        rw [parseMember_succ] at h
        rw [parseMember_succ]
        cases hsk : skipWs cs with
        | nil =>
          rw [hsk] at h
          simp at h
        | cons c rest =>
          rw [hsk] at h
          rw [skipWs_cons_append cs ext c rest hsk]
          by_cases hq : c = '"'
          · simp only [hq, if_pos rfl] at h ⊢
            cases hps : parseStringBody rest with
            | none =>
              rw [hps] at h
              simp at h
            | some kr =>
              obtain ⟨k, r1⟩ := kr
              rw [hps] at h
              rw [parseStringBody_append ext rest k r1 hps]
              replace h : (match skipWs r1 with
                | ':' :: r2 =>
                  match parseVal f r2 with
                  | some (v1, r3) => some ((String.mk k, v1), r3)
                  | none => none
                | _ => none) = some (kv, r) := h
              show (match skipWs (r1 ++ ext) with
                | ':' :: r2 =>
                  match parseVal g2 r2 with
                  | some (v1, r3) => some ((String.mk k, v1), r3)
                  | none => none
                | _ => none) = some (kv, r ++ ext)
              cases hsk2 : skipWs r1 with
              | nil =>
                rw [hsk2] at h
                simp at h
              | cons c2 r2 =>
                rw [hsk2] at h
                rw [skipWs_cons_append r1 ext c2 r2 hsk2]
                by_cases hcol : c2 = ':'
                · subst hcol
                  replace h : (match parseVal f r2 with
                    | some (v1, r3) => some ((String.mk k, v1), r3)
                    | none => none) = some (kv, r) := h
                  show (match parseVal g2 (r2 ++ ext) with
                    | some (v1, r3) => some ((String.mk k, v1), r3)
                    | none => none) = some (kv, r ++ ext)
                  cases hpv : parseVal f r2 with
                  | none =>
                    rw [hpv] at h
                    simp at h
                  | some vr =>
                    obtain ⟨v1, r3⟩ := vr
                    rw [hpv] at h
                    replace h : some ((String.mk k, v1), r3) = some (kv, r) := h
                    injection h with h1
                    injection h1 with hv hr
                    subst hv
                    subst hr
                    rw [ihV r2 v1 r3 hpv g2 ext hg hok]
                · simp [hcol] at h
          · simp only [if_neg hq] at h
            exact absurd h (by simp)
    · -- parseArrTail
      intro acc cs v r h g ext hle hok
      cases g with
      | zero => exact absurd hle (by omega)
      | succ g2 =>
        have hg : f ≤ g2 := by omega
        rw [parseArrTail_succ] at h
        rw [parseArrTail_succ]
        cases hsk : skipWs cs with
        | nil =>
          rw [hsk] at h
          simp at h
        | cons c rest =>
          rw [hsk] at h
          rw [skipWs_cons_append cs ext c rest hsk]
          by_cases hcm : c = ','
          · simp only [hcm, if_pos rfl] at h ⊢
            cases hpv : parseVal f rest with
            | none =>
              rw [hpv] at h
              simp at h
            | some vr =>
              obtain ⟨v1, r1⟩ := vr
              rw [hpv] at h
              replace h : parseArrTail f (acc ++ [v1]) r1 = some (v, r) := h
              have hr1 : r1 ≠ [] := by
                intro hnil
                rw [hnil, parseArrTail_nil] at h
                exact absurd h (by simp)
              rw [ihV rest v1 r1 hpv g2 ext hg (Or.inl hr1)]
              exact ihA (acc ++ [v1]) r1 v r h g2 ext hg hok
          · by_cases hrb : c = rbracketC
            · simp only [if_neg hcm, hrb, if_pos rfl] at h ⊢
              replace h : some (Json.arr acc, rest) = some (v, r) := h
              injection h with h1
              injection h1 with hv hr
              subst hv
              subst hr
              rfl
            · simp only [if_neg hcm, if_neg hrb] at h
              exact absurd h (by simp)
    · -- parseObjTail
      intro acc cs v r h g ext hle hok
      cases g with
      | zero => exact absurd hle (by omega)
      | succ g2 =>
        have hg : f ≤ g2 := by omega
        rw [parseObjTail_succ] at h
        rw [parseObjTail_succ]
        cases hsk : skipWs cs with
        | nil =>
          rw [hsk] at h
          simp at h
        | cons c rest =>
          rw [hsk] at h
          rw [skipWs_cons_append cs ext c rest hsk]
          by_cases hcm : c = ','
          · simp only [hcm, if_pos rfl] at h ⊢
            cases hpm : parseMember f rest with
            | none =>
              rw [hpm] at h
              simp at h
            | some kvr =>
              obtain ⟨kv1, r1⟩ := kvr
              rw [hpm] at h
              replace h : parseObjTail f (acc ++ [kv1]) r1 = some (v, r) := h
              have hr1 : r1 ≠ [] := by
                intro hnil
                rw [hnil, parseObjTail_nil] at h
                exact absurd h (by simp)
              rw [ihM rest kv1 r1 hpm g2 ext hg (Or.inl hr1)]
              exact ihO (acc ++ [kv1]) r1 v r h g2 ext hg hok
          · by_cases hrb : c = rbraceC
            · simp only [if_neg hcm, hrb, if_pos rfl] at h ⊢
              replace h : some (Json.obj acc, rest) = some (v, r) := h
              injection h with h1
              injection h1 with hv hr
              subst hv
              subst hr
              rfl
            · simp only [if_neg hcm, if_neg hrb] at h
              exact absurd h (by simp)

theorem parseVal_append_mono (f g : Nat) (cs ext : List Char) (v : Json) (r : List Char)
    (h : parseVal f cs = some (v, r)) (hle : f ≤ g) (hok : extOk r ext) :
    parseVal g (cs ++ ext) = some (v, r ++ ext) :=
  (parse_append_mono f).1 cs v r h g ext hle hok

theorem parseVal_mono (f g : Nat) (cs : List Char) (v : Json) (r : List Char)
    (h : parseVal f cs = some (v, r)) (hle : f ≤ g) : parseVal g cs = some (v, r) := by
  have hres := parseVal_append_mono f g cs [] v r h hle (Or.inr trivial)
  rw [List.append_nil, List.append_nil] at hres
  exact hres

/-- Envelope suffix after the original payload: close of the inner object, the
array and the envelope object. -/
def envA0 : List Char := rbraceC :: ']' :: rbraceC :: []

/-- The outer `"d"` member of the envelope and everything after it. -/
def envMemD (orig : List Char) : List Char :=
  '"' :: 'd' :: '"' :: ':' :: '[' :: lbraceC :: '"' :: 'd' :: '"' :: ':' :: (orig ++ envA0)

/-- The `"dt"` member of the envelope and everything after it. -/
def envMemDt (dt orig : List Char) : List Char :=
  '"' :: 'd' :: 't' :: '"' :: ':' :: ' ' :: '"' :: (dt ++ ('"' :: ',' :: envMemD orig))

/-- The `"mt"` member of the envelope and everything after it. -/
def envMemMt (dt orig : List Char) : List Char :=
  '"' :: 'm' :: 't' :: '"' :: ':' :: ' ' :: '0' :: ',' :: envMemDt dt orig

/-- The `"dtg"` member of the envelope and everything after it. -/
def envMemDtg (dtg dt orig : List Char) : List Char :=
  '"' :: 'd' :: 't' :: 'g' :: '"' :: ':' :: '"' :: (dtg ++ ('"' :: ',' :: envMemMt dt orig))

/-- The `"sid"` member of the envelope and everything after it. -/
def envMemSid (sid dtg dt orig : List Char) : List Char :=
  '"' :: 's' :: 'i' :: 'd' :: '"' :: ':' :: '"' :: (sid ++ ('"' :: ',' :: envMemDtg dtg dt orig))

theorem str_data_append (a b : String) : (a ++ b).data = a.data ++ b.data := rfl

/-- The characters of the envelope, decomposed member by member. -/
theorem IoTCTelemetryJson_data (sid dtg dt orig : String) :
    (IoTCTelemetryJson sid dtg dt orig).data =
      lbraceC :: envMemSid sid.data dtg.data dt.data orig.data := by
  simp only [IoTCTelemetryJson, str_data_append,
    show ("\x7b\"sid\":\"" : String).data = [lbraceC, '"', 's', 'i', 'd', '"', ':', '"']
      from rfl,
    show ("\",\"dtg\":\"" : String).data = ['"', ',', '"', 'd', 't', 'g', '"', ':', '"']
      from rfl,
    show ("\",\"mt\": 0,\"dt\": \"" : String).data =
      ['"', ',', '"', 'm', 't', '"', ':', ' ', '0', ',', '"', 'd', 't', '"', ':', ' ', '"']
      from rfl,
    show ("\",\"d\":[\x7b\"d\":" : String).data =
      ['"', ',', '"', 'd', '"', ':', '[', lbraceC, '"', 'd', '"', ':'] from rfl,
    show ("\x7d]\x7d" : String).data = [rbraceC, ']', rbraceC] from rfl,
    envMemSid, envMemDtg, envMemMt, envMemDt, envMemD, envA0]
  simp [List.append_assoc]
  exact ⟨rfl, rfl⟩

/-- The JSON value of a well-formed envelope. -/
def envJson (sid dtg dt : String) (v : Json) : Json :=
  Json.obj [("sid", Json.str sid), ("dtg", Json.str dtg), ("mt", Json.num 0),
    ("dt", Json.str dt), ("d", Json.arr [Json.obj [("d", v)]])]

theorem parseVal_envInner (f : Nat) (orig : List Char) (v : Json) (r0 : List Char)
    (ho : parseVal f orig = some (v, r0)) (hr0 : skipWs r0 = []) :
    parseVal (f + 2) (lbraceC :: '"' :: 'd' :: '"' :: ':' :: (orig ++ envA0)) =
      some (Json.obj [("d", v)], ']' :: rbraceC :: []) := by
  have hX : parseVal f (orig ++ envA0) = some (v, r0 ++ envA0) :=
    parseVal_append_mono f f orig envA0 v r0 ho (Nat.le_refl f)
      (Or.inr (by decide : isNumChar rbraceC = false))
  have hMd : parseMember (f + 1) ('"' :: 'd' :: '"' :: ':' :: (orig ++ envA0)) =
      some (("d", v), r0 ++ envA0) := by
    show (match parseVal f (orig ++ envA0) with
      | some (v1, r3) => some ((String.mk ['d'], v1), r3)
      | none => none) = some (("d", v), r0 ++ envA0)
    rw [hX]
  show (match parseMember (f + 1) ('"' :: 'd' :: '"' :: ':' :: (orig ++ envA0)) with
    | some (kv, r) => parseObjTail (f + 1) [kv] r
    | none => none) = some (Json.obj [("d", v)], ']' :: rbraceC :: [])
  rw [hMd]
  show parseObjTail (f + 1) [("d", v)] (r0 ++ envA0) =
    some (Json.obj [("d", v)], ']' :: rbraceC :: [])
  rw [parseObjTail_succ, skipWs_nil_append r0 envA0 hr0]
  rfl

theorem parseVal_envArr (f : Nat) (orig : List Char) (v : Json) (r0 : List Char)
    (ho : parseVal f orig = some (v, r0)) (hr0 : skipWs r0 = []) :
    parseVal (f + 3) ('[' :: lbraceC :: '"' :: 'd' :: '"' :: ':' :: (orig ++ envA0)) =
      some (Json.arr [Json.obj [("d", v)]], [rbraceC]) := by
  have hIn := parseVal_envInner f orig v r0 ho hr0
  show (match parseVal (f + 2) (lbraceC :: '"' :: 'd' :: '"' :: ':' :: (orig ++ envA0)) with
    | some (v1, r) => parseArrTail (f + 2) [v1] r
    | none => none) = some (Json.arr [Json.obj [("d", v)]], [rbraceC])
  rw [hIn]
  show parseArrTail (f + 2) [Json.obj [("d", v)]] (']' :: rbraceC :: []) =
    some (Json.arr [Json.obj [("d", v)]], [rbraceC])
  rfl

theorem parseMember_envMemD (f : Nat) (orig : List Char) (v : Json) (r0 : List Char)
    (ho : parseVal f orig = some (v, r0)) (hr0 : skipWs r0 = []) :
    parseMember (f + 4) (envMemD orig) =
      some (("d", Json.arr [Json.obj [("d", v)]]), [rbraceC]) := by
  have hArr := parseVal_envArr f orig v r0 ho hr0
  show (match parseVal (f + 3)
      ('[' :: lbraceC :: '"' :: 'd' :: '"' :: ':' :: (orig ++ envA0)) with
    | some (v1, r3) => some ((String.mk ['d'], v1), r3)
    | none => none) = some (("d", Json.arr [Json.obj [("d", v)]]), [rbraceC])
  rw [hArr]

theorem parseMember_envMemDt (f : Nat) (dt orig : List Char) (hdt : cleanChars dt = true) :
    parseMember (f + 5) (envMemDt dt orig) =
      some (("dt", Json.str (String.mk dt)), ',' :: envMemD orig) := by
  show (match (match parseStringBody (dt ++ ('"' :: ',' :: envMemD orig)) with
      | some (s, r) => some (Json.str (String.mk s), r)
      | none => none) with
    | some (v1, r3) => some ((String.mk ['d', 't'], v1), r3)
    | none => none) = some (("dt", Json.str (String.mk dt)), ',' :: envMemD orig)
  rw [parseStringBody_clean dt (',' :: envMemD orig) hdt]

theorem parseMember_envMemMt (f : Nat) (dt orig : List Char) :
    parseMember (f + 6) (envMemMt dt orig) =
      some (("mt", Json.num 0), ',' :: envMemDt dt orig) := rfl

theorem parseMember_envMemDtg (f : Nat) (dtg dt orig : List Char)
    (hdtg : cleanChars dtg = true) :
    parseMember (f + 7) (envMemDtg dtg dt orig) =
      some (("dtg", Json.str (String.mk dtg)), ',' :: envMemMt dt orig) := by
  show (match (match parseStringBody (dtg ++ ('"' :: ',' :: envMemMt dt orig)) with
      | some (s, r) => some (Json.str (String.mk s), r)
      | none => none) with
    | some (v1, r3) => some ((String.mk ['d', 't', 'g'], v1), r3)
    | none => none) = some (("dtg", Json.str (String.mk dtg)), ',' :: envMemMt dt orig)
  rw [parseStringBody_clean dtg (',' :: envMemMt dt orig) hdtg]

theorem parseMember_envMemSid (f : Nat) (sid dtg dt orig : List Char)
    (hsid : cleanChars sid = true) :
    parseMember (f + 8) (envMemSid sid dtg dt orig) =
      some (("sid", Json.str (String.mk sid)), ',' :: envMemDtg dtg dt orig) := by
  show (match (match parseStringBody (sid ++ ('"' :: ',' :: envMemDtg dtg dt orig)) with
      | some (s, r) => some (Json.str (String.mk s), r)
      | none => none) with
    | some (v1, r3) => some ((String.mk ['s', 'i', 'd'], v1), r3)
    | none => none) = some (("sid", Json.str (String.mk sid)), ',' :: envMemDtg dtg dt orig)
  rw [parseStringBody_clean sid (',' :: envMemDtg dtg dt orig) hsid]

theorem parseVal_envelope (f : Nat) (sid dtg dt orig : List Char) (v : Json)
    (r0 : List Char) (hsid : cleanChars sid = true) (hdtg : cleanChars dtg = true)
    (hdt : cleanChars dt = true) (ho : parseVal f orig = some (v, r0))
    (hr0 : skipWs r0 = []) :
    parseVal (f + 9) (lbraceC :: envMemSid sid dtg dt orig) =
      some (envJson (String.mk sid) (String.mk dtg) (String.mk dt) v, []) := by
  have hM1 := parseMember_envMemSid f sid dtg dt orig hsid
  have hM2 := parseMember_envMemDtg f dtg dt orig hdtg
  have hM3 := parseMember_envMemMt f dt orig
  have hM4 := parseMember_envMemDt f dt orig hdt
  have hM5 := parseMember_envMemD f orig v r0 ho hr0
  have hT5 : parseObjTail (f + 4)
      [("sid", Json.str (String.mk sid)), ("dtg", Json.str (String.mk dtg)),
       ("mt", Json.num 0), ("dt", Json.str (String.mk dt)),
       ("d", Json.arr [Json.obj [("d", v)]])] [rbraceC] =
      some (envJson (String.mk sid) (String.mk dtg) (String.mk dt) v, []) := rfl
  have hT4 : parseObjTail (f + 5)
      [("sid", Json.str (String.mk sid)), ("dtg", Json.str (String.mk dtg)),
       ("mt", Json.num 0), ("dt", Json.str (String.mk dt))] (',' :: envMemD orig) =
      some (envJson (String.mk sid) (String.mk dtg) (String.mk dt) v, []) := by
    show (match parseMember (f + 4) (envMemD orig) with
      | some (kv, r) => parseObjTail (f + 4)
          ([("sid", Json.str (String.mk sid)), ("dtg", Json.str (String.mk dtg)),
            ("mt", Json.num 0), ("dt", Json.str (String.mk dt))] ++ [kv]) r
      | none => none) =
      some (envJson (String.mk sid) (String.mk dtg) (String.mk dt) v, [])
    rw [hM5]
    exact hT5
  have hT3 : parseObjTail (f + 6)
      [("sid", Json.str (String.mk sid)), ("dtg", Json.str (String.mk dtg)),
       ("mt", Json.num 0)] (',' :: envMemDt dt orig) =
      some (envJson (String.mk sid) (String.mk dtg) (String.mk dt) v, []) := by
    show (match parseMember (f + 5) (envMemDt dt orig) with
      | some (kv, r) => parseObjTail (f + 5)
          ([("sid", Json.str (String.mk sid)), ("dtg", Json.str (String.mk dtg)),
            ("mt", Json.num 0)] ++ [kv]) r
      | none => none) =
      some (envJson (String.mk sid) (String.mk dtg) (String.mk dt) v, [])
    rw [hM4]
    exact hT4
  have hT2 : parseObjTail (f + 7)
      [("sid", Json.str (String.mk sid)), ("dtg", Json.str (String.mk dtg))]
      (',' :: envMemMt dt orig) =
      some (envJson (String.mk sid) (String.mk dtg) (String.mk dt) v, []) := by
    show (match parseMember (f + 6) (envMemMt dt orig) with
      | some (kv, r) => parseObjTail (f + 6)
          ([("sid", Json.str (String.mk sid)), ("dtg", Json.str (String.mk dtg))] ++ [kv]) r
      | none => none) =
      some (envJson (String.mk sid) (String.mk dtg) (String.mk dt) v, [])
    rw [hM3]
    exact hT3
  have hT1 : parseObjTail (f + 8) [("sid", Json.str (String.mk sid))]
      (',' :: envMemDtg dtg dt orig) =
      some (envJson (String.mk sid) (String.mk dtg) (String.mk dt) v, []) := by
    show (match parseMember (f + 7) (envMemDtg dtg dt orig) with
      | some (kv, r) => parseObjTail (f + 7) ([("sid", Json.str (String.mk sid))] ++ [kv]) r
      | none => none) =
      some (envJson (String.mk sid) (String.mk dtg) (String.mk dt) v, [])
    rw [hM2]
    exact hT2
  show (match parseMember (f + 8) (envMemSid sid dtg dt orig) with
    | some (kv, r) => parseObjTail (f + 8) [kv] r
    | none => none) =
    some (envJson (String.mk sid) (String.mk dtg) (String.mk dt) v, [])
  rw [hM1]
  exact hT1

theorem envList_length (s d t o : List Char) :
    (lbraceC :: envMemSid s d t o).length =
      49 + s.length + d.length + t.length + o.length := by
  simp [envMemSid, envMemDtg, envMemMt, envMemDt, envMemD, envA0]
  omega

/-- Parsing the formatted envelope: if the embedded original text parses as a
JSON value and the sid, dtg and timestamp strings contain no quote or
backslash, the whole envelope parses to the expected object. -/
theorem json_parse_string_envelope (sid dtg dt orig : String) (v : Json)
    (hsid : cleanChars sid.data = true) (hdtg : cleanChars dtg.data = true)
    (hdt : cleanChars dt.data = true)
    (ho : json_parse_string orig = some v) :
    json_parse_string (IoTCTelemetryJson sid dtg dt orig) =
      some (envJson sid dtg dt v) := by
  unfold json_parse_string at ho
  split at ho
  case h_2 => exact absurd ho (by simp)
  case h_1 v1 r0 heq =>
    split at ho
    case isFalse => exact absurd ho (by simp)
    case isTrue hr0 =>
      replace ho : v1 = v := by
        injection ho
      subst ho
      have henv := parseVal_envelope (orig.length + 1) sid.data dtg.data dt.data
        orig.data v1 r0 hsid hdtg hdt heq hr0
      have hlen : (IoTCTelemetryJson sid dtg dt orig).length =
          49 + sid.data.length + dtg.data.length + dt.data.length + orig.data.length := by
        have hd : (IoTCTelemetryJson sid dtg dt orig).length =
            (lbraceC :: envMemSid sid.data dtg.data dt.data orig.data).length := by
          show (IoTCTelemetryJson sid dtg dt orig).data.length = _
          rw [IoTCTelemetryJson_data]
        rw [hd, envList_length]
      have hle : (orig.length + 1) + 9 ≤ (IoTCTelemetryJson sid dtg dt orig).length + 1 := by
        have horig : orig.length = orig.data.length := rfl
        omega
      have hlift := parseVal_mono ((orig.length + 1) + 9)
        ((IoTCTelemetryJson sid dtg dt orig).length + 1)
        (lbraceC :: envMemSid sid.data dtg.data dt.data orig.data)
        (envJson (String.mk sid.data) (String.mk dtg.data) (String.mk dt.data) v1) []
        henv hle
      unfold json_parse_string
      rw [show (IoTCTelemetryJson sid dtg dt orig).data =
          lbraceC :: envMemSid sid.data dtg.data dt.data orig.data from
          IoTCTelemetryJson_data sid dtg dt orig]
      rw [hlift]
      rfl

theorem strTake_of_le (n : Nat) (s : String) (h : s.length ≤ n) : strTake n s = s := by
  unfold strTake
  rw [List.take_of_length_le h]

theorem IoTCTelemetryJson_length (sid dtg dt orig : String) :
    (IoTCTelemetryJson sid dtg dt orig).length =
      49 + sid.length + dtg.length + dt.length + orig.length := by
  show (IoTCTelemetryJson sid dtg dt orig).data.length = _
  rw [IoTCTelemetryJson_data, envList_length]
  rfl

/-- Success case of `FormatTelemetryForIoTConnect`: connected, buffer large
enough, session strings within their buffer bounds and a timestamp of at most
28 characters give the untruncated envelope. -/
theorem FormatTelemetry_success (st : CloudState) (dt orig buf : String) (n : Nat)
    (hconn : st.IoTCConnected = true)
    (hsize : orig.length + IOTC_TELEMETRY_OVERHEAD ≤ n)
    (hsid : st.sidString.length ≤ SID_LEN) (hdtg : st.dtgGUID.length ≤ GUID_LEN)
    (hdt : dt.length ≤ 28) :
    FormatTelemetryForIoTConnect st dt orig buf n =
      (true, IoTCTelemetryJson st.sidString st.dtgGUID dt orig, st) := by
  unfold FormatTelemetryForIoTConnect
  rw [hconn]
  simp only [Bool.not_true, Bool.false_eq_true, if_false]
  rw [if_neg (by omega : ¬ orig.length + IOTC_TELEMETRY_OVERHEAD > n)]
  rw [strTake_of_le]
  rw [IoTCTelemetryJson_length]
  have h1 : st.sidString.length ≤ 64 := hsid
  have h2 : st.dtgGUID.length ≤ 36 := hdtg
  show 49 + st.sidString.length + st.dtgGUID.length + dt.length + orig.length ≤
    orig.length + IOTC_TELEMETRY_OVERHEAD - 1
  show 49 + st.sidString.length + st.dtgGUID.length + dt.length + orig.length ≤
    orig.length + 178 - 1
  omega

/-- Failure case of `FormatTelemetryForIoTConnect`: not connected, or a buffer
smaller than the computed required size, yields `false` and leaves both the
caller's buffer and the session state untouched. -/
theorem FormatTelemetry_failure (st : CloudState) (dt orig buf : String) (n : Nat)
    (h : st.IoTCConnected = false ∨ orig.length + IOTC_TELEMETRY_OVERHEAD > n) :
    FormatTelemetryForIoTConnect st dt orig buf n = (false, buf, st) := by
  unfold FormatTelemetryForIoTConnect
  rcases h with hconn | hsize
  · rw [hconn]
    simp
  · cases hc : st.IoTCConnected with
    | false => simp
    | true =>
      simp only [Bool.not_true, Bool.false_eq_true, if_false]
      rw [if_pos hsize]

theorem strTake_length_le (n : Nat) (s : String) : (strTake n s).length ≤ n := by
  show (s.data.take n).length ≤ n
  rw [List.length_take]
  omega

theorem stepDtg_str (d : List (String × Json)) (s : String) (st : CloudState)
    (h : jlookup d "dtg" = some (Json.str s)) :
    stepDtg (some d) st = some { st with dtgGUID := strTake GUID_LEN s } := by
  unfold stepDtg json_object_has_value json_object_get_string
  simp [h]

theorem stepDtg_absent (d : List (String × Json)) (st : CloudState)
    (h : jlookup d "dtg" = none) : stepDtg (some d) st = some st := by
  unfold stepDtg json_object_has_value json_object_get_string
  simp [h]

theorem stepG_str (d : List (String × Json)) (s : String) (st : CloudState)
    (h : jlookup d "g" = some (Json.str s)) :
    stepG (some d) st = some { st with gGUID := strTake GUID_LEN s } := by
  unfold stepG json_object_has_value json_object_get_string
  simp [h]

theorem stepG_absent (d : List (String × Json)) (st : CloudState)
    (h : jlookup d "g" = none) : stepG (some d) st = some st := by
  unfold stepG json_object_has_value json_object_get_string
  simp [h]

theorem stepSid_str_new (d : List (String × Json)) (s : String) (st : CloudState)
    (h : jlookup d "sid" = some (Json.str s))
    (hne : strTake SID_LEN s ≠ strTake SID_LEN st.sidString) :
    stepSid (some d) st = some { st with
      sidString := strTake SID_LEN s
      durableSID := strTake SID_LEN s
      sidWrites := st.sidWrites ++ [strTake SID_LEN s] } := by
  unfold stepSid json_object_has_value json_object_get_string
  simp [h, hne]

theorem stepSid_str_same (d : List (String × Json)) (s : String) (st : CloudState)
    (h : jlookup d "sid" = some (Json.str s))
    (heq : strTake SID_LEN s = strTake SID_LEN st.sidString) :
    stepSid (some d) st = some st := by
  unfold stepSid json_object_has_value json_object_get_string
  simp [h, heq]

theorem receiveMessageCallback_parseFail (st : CloudState) (msg : String)
    (h : json_parse_string msg = none) : receiveMessageCallback st msg = some st := by
  unfold receiveMessageCallback
  rw [h]

theorem receiveMessageCallback_sets_connected (st : CloudState) (msg : String)
    (root : Json) (stOut : CloudState) (hp : json_parse_string msg = some root)
    (h : receiveMessageCallback st msg = some stOut) : stOut.IoTCConnected = true := by
  unfold receiveMessageCallback at h
  rw [hp] at h
  replace h : (match stepDtg (dPropertiesOf root) st with
    | none => none
    | some st1 =>
      match stepSid (dPropertiesOf root) st1 with
      | none => none
      | some st2 =>
        match stepG (dPropertiesOf root) st2 with
        | none => none
        | some st3 => some { st3 with IoTCConnected := true }) = some stOut := h
  cases h1 : stepDtg (dPropertiesOf root) st with
  | none =>
    rw [h1] at h
    simp at h
  | some st1 =>
    rw [h1] at h
    replace h : (match stepSid (dPropertiesOf root) st1 with
      | none => none
      | some st2 =>
        match stepG (dPropertiesOf root) st2 with
        | none => none
        | some st3 => some { st3 with IoTCConnected := true }) = some stOut := h
    cases h2 : stepSid (dPropertiesOf root) st1 with
    | none =>
      rw [h2] at h
      simp at h
    | some st2 =>
      rw [h2] at h
      replace h : (match stepG (dPropertiesOf root) st2 with
        | none => none
        | some st3 => some { st3 with IoTCConnected := true }) = some stOut := h
      cases h3 : stepG (dPropertiesOf root) st2 with
      | none =>
        rw [h3] at h
        simp at h
      | some st3 =>
        rw [h3] at h
        replace h : some { st3 with IoTCConnected := true } = some stOut := h
        injection h with h4
        rw [← h4]

theorem processMessages_parseFail (st : CloudState) (msgs : List String)
    (h : ∀ m ∈ msgs, json_parse_string m = none) : processMessages st msgs = some st := by
  induction msgs with
  | nil => rfl
  | cons m rest ih =>
    unfold processMessages
    rw [receiveMessageCallback_parseFail st m (h m (by simp))]
    exact ih (fun x hx => h x (by simp [hx]))

theorem receiveMessageCallback_steps (st : CloudState) (msg : String) (root : Json)
    (st1 st2 st3 : CloudState) (hp : json_parse_string msg = some root)
    (h1 : stepDtg (dPropertiesOf root) st = some st1)
    (h2 : stepSid (dPropertiesOf root) st1 = some st2)
    (h3 : stepG (dPropertiesOf root) st2 = some st3) :
    receiveMessageCallback st msg = some { st3 with IoTCConnected := true } := by
  unfold receiveMessageCallback
  rw [hp]
  show (match stepDtg (dPropertiesOf root) st with
    | none => none
    | some s1 =>
      match stepSid (dPropertiesOf root) s1 with
      | none => none
      | some s2 =>
        match stepG (dPropertiesOf root) s2 with
        | none => none
        | some s3 => some { s3 with IoTCConnected := true }) =
    some { st3 with IoTCConnected := true }
  rw [h1]
  show (match stepSid (dPropertiesOf root) st1 with
    | none => none
    | some s2 =>
      match stepG (dPropertiesOf root) s2 with
      | none => none
      | some s3 => some { s3 with IoTCConnected := true }) =
    some { st3 with IoTCConnected := true }
  rw [h2]
  show (match stepG (dPropertiesOf root) st2 with
    | none => none
    | some s3 => some { s3 with IoTCConnected := true }) =
    some { st3 with IoTCConnected := true }
  rw [h3]

/-! ## Claim theorems -/

/-- C3: for every input JSON string and every output buffer size,
`FormatTelemetryForIoTConnect` returns failure whenever the connected flag is
false, regardless of the input or the size of the supplied buffer. -/
theorem C3_wrapTelemetry_fails_when_not_connected (st : CloudState)
    (dt orig buf : String) (n : Nat) (h : st.IoTCConnected = false) :
    (FormatTelemetryForIoTConnect st dt orig buf n).1 = false := by
  rw [FormatTelemetry_failure st dt orig buf n (Or.inl h)]

theorem C3_witness :
    (FormatTelemetryForIoTConnect iotcInitialState "2020-06-23T15:27:33.0000000Z"
      "\x7b\"a\":1\x7d" "" 200000).1 = false :=
  C3_wrapTelemetry_fails_when_not_connected iotcInitialState
    "2020-06-23T15:27:33.0000000Z" "\x7b\"a\":1\x7d" "" 200000 rfl

/-- C10: whenever `FormatTelemetryForIoTConnect` returns failure, it writes
nothing into the caller-supplied output buffer and modifies no session state:
the call returns `(false, bufferIn, st)` with the buffer and state exactly as
they were passed in. -/
theorem C10_failure_is_atomic (st : CloudState) (dt orig buf : String) (n : Nat)
    (h : (FormatTelemetryForIoTConnect st dt orig buf n).1 = false) :
    FormatTelemetryForIoTConnect st dt orig buf n = (false, buf, st) := by
  cases hc : st.IoTCConnected with
  | false => exact FormatTelemetry_failure st dt orig buf n (Or.inl hc)
  | true =>
    by_cases hsize : orig.length + IOTC_TELEMETRY_OVERHEAD > n
    · exact FormatTelemetry_failure st dt orig buf n (Or.inr hsize)
    · exfalso
      unfold FormatTelemetryForIoTConnect at h
      rw [hc] at h
      simp only [Bool.not_true, Bool.false_eq_true, if_false] at h
      rw [if_neg hsize] at h
      simp at h

theorem C10_witness :
    (FormatTelemetryForIoTConnect iotcInitialState "2020-06-23T15:27:33.0000000Z"
      "\x7b\"a\":1\x7d" "previous buffer contents" 100000).1 = false ∧
    FormatTelemetryForIoTConnect iotcInitialState "2020-06-23T15:27:33.0000000Z"
      "\x7b\"a\":1\x7d" "previous buffer contents" 100000 =
      (false, "previous buffer contents", iotcInitialState) :=
  ⟨rfl, C10_failure_is_atomic iotcInitialState "2020-06-23T15:27:33.0000000Z"
    "\x7b\"a\":1\x7d" "previous buffer contents" 100000 rfl⟩

/-- C2: `FormatTelemetryForIoTConnect` fails whenever the required size
(input length plus the fixed envelope overhead) exceeds the buffer size; and
whenever the connected flag is set and the buffer is large enough it succeeds,
writing the parseable JSON envelope
`{"sid":"<sid>","dtg":"<dtg>","mt": 0,"dt": "<dt>","d":[{"d":<original>}]}`
into the buffer with the original input embedded verbatim and untruncated as
the nested element. -/
theorem C2_wrapTelemetry (st : CloudState) (dt orig buf : String) (n : Nat) (v : Json)
    (hsidlen : st.sidString.length ≤ SID_LEN) (hdtglen : st.dtgGUID.length ≤ GUID_LEN)
    (hdtlen : dt.length ≤ 28) (hsidcl : cleanChars st.sidString.data = true)
    (hdtgcl : cleanChars st.dtgGUID.data = true) (hdtcl : cleanChars dt.data = true)
    (hparse : json_parse_string orig = some v) :
    (orig.length + IOTC_TELEMETRY_OVERHEAD > n →
      (FormatTelemetryForIoTConnect st dt orig buf n).1 = false) ∧
    (st.IoTCConnected = true → orig.length + IOTC_TELEMETRY_OVERHEAD ≤ n →
      FormatTelemetryForIoTConnect st dt orig buf n =
        (true, IoTCTelemetryJson st.sidString st.dtgGUID dt orig, st) ∧
      json_parse_string (IoTCTelemetryJson st.sidString st.dtgGUID dt orig) =
        some (envJson st.sidString st.dtgGUID dt v)) := by
  constructor
  · intro hsize
    rw [FormatTelemetry_failure st dt orig buf n (Or.inr hsize)]
  · intro hconn hsize
    constructor
    · exact FormatTelemetry_success st dt orig buf n hconn hsize hsidlen hdtglen hdtlen
    · exact json_parse_string_envelope st.sidString st.dtgGUID dt orig v
        hsidcl hdtgcl hdtcl hparse

/-- A connected session state with short clean identifiers, used by the
concrete witnesses. -/
def iotcConnectedExample : CloudState :=
  { dtgGUID := "b3a7d542-20ad-4397-abf3-5d7ec539fba6", gGUID := "", sidString := "SID001",
    IoTCConnected := true, durableSID := "", sidWrites := [] }

theorem C2_witness :
    (("\x7b\"a\":1\x7d" : String).length + IOTC_TELEMETRY_OVERHEAD > 200 →
      (FormatTelemetryForIoTConnect iotcConnectedExample "2020-06-23T15:27:33.0000000Z"
        "\x7b\"a\":1\x7d" "" 200).1 = false) ∧
    (iotcConnectedExample.IoTCConnected = true →
      ("\x7b\"a\":1\x7d" : String).length + IOTC_TELEMETRY_OVERHEAD ≤ 200 →
      FormatTelemetryForIoTConnect iotcConnectedExample "2020-06-23T15:27:33.0000000Z"
        "\x7b\"a\":1\x7d" "" 200 =
        (true, IoTCTelemetryJson iotcConnectedExample.sidString
          iotcConnectedExample.dtgGUID "2020-06-23T15:27:33.0000000Z" "\x7b\"a\":1\x7d",
          iotcConnectedExample) ∧
      json_parse_string (IoTCTelemetryJson iotcConnectedExample.sidString
        iotcConnectedExample.dtgGUID "2020-06-23T15:27:33.0000000Z" "\x7b\"a\":1\x7d") =
        some (envJson iotcConnectedExample.sidString iotcConnectedExample.dtgGUID
          "2020-06-23T15:27:33.0000000Z" (Json.obj [("a", Json.num 1)]))) :=
  C2_wrapTelemetry iotcConnectedExample "2020-06-23T15:27:33.0000000Z" "\x7b\"a\":1\x7d"
    "" 200 (Json.obj [("a", Json.num 1)]) (by decide) (by decide) (by decide)
    (by decide) (by decide) (by decide) rfl

/-- C1 counterexample: the message `{}` parses successfully as JSON but
contains no `"d"` object at all, so no handshake field is (or can be)
extracted; yet processing it flips the connected flag to true while leaving
every session identifier untouched.  The connected flag therefore does not
wait for a message from which the handshake fields were successfully
extracted, contradicting the claim as stated. -/
theorem C1_counterexample :
    receiveMessageCallback iotcInitialState "\x7b\x7d" =
      some { iotcInitialState with IoTCConnected := true } ∧
    json_parse_string "\x7b\x7d" = some (Json.obj []) ∧
    dPropertiesOf (Json.obj []) = none ∧
    (iotcInitialState.dtgGUID = "" ∧ iotcInitialState.sidString = "" ∧
      iotcInitialState.gGUID = "") :=
  ⟨rfl, rfl, rfl, rfl, rfl, rfl⟩

/-- C1 amended: the connected flag becomes true exactly when a message that
parses successfully as JSON has been processed to completion (whether or not
any handshake field was present); for every message whose JSON fails to
parse, and for every sequence of such messages, the session state is
unchanged, so the flag stays false and every call to `wrapTelemetry` is
rejected until some successfully-parsed message has been processed. -/
theorem C1_connected_only_after_parse (st : CloudState) (msgs : List String)
    (m dt orig buf : String) (n : Nat)
    (hall : ∀ x ∈ msgs, json_parse_string x = none)
    (hconn : st.IoTCConnected = false) :
    processMessages st msgs = some st ∧
    (FormatTelemetryForIoTConnect st dt orig buf n).1 = false ∧
    (json_parse_string m = none → receiveMessageCallback st m = some st) ∧
    (∀ root stOut, json_parse_string m = some root →
      receiveMessageCallback st m = some stOut → stOut.IoTCConnected = true) := by
  refine ⟨processMessages_parseFail st msgs hall, ?_, ?_, ?_⟩
  · rw [FormatTelemetry_failure st dt orig buf n (Or.inl hconn)]
  · intro hm
    exact receiveMessageCallback_parseFail st m hm
  · intro root stOut hp h
    exact receiveMessageCallback_sets_connected st m root stOut hp h

theorem C1_witness :
    processMessages iotcInitialState ["not json at all"] = some iotcInitialState ∧
    (FormatTelemetryForIoTConnect iotcInitialState "2020-06-23T15:27:33.0000000Z"
      "\x7b\"a\":1\x7d" "" 200).1 = false ∧
    (json_parse_string "\x7b\x7d" = none →
      receiveMessageCallback iotcInitialState "\x7b\x7d" = some iotcInitialState) ∧
    (∀ root stOut, json_parse_string "\x7b\x7d" = some root →
      receiveMessageCallback iotcInitialState "\x7b\x7d" = some stOut →
      stOut.IoTCConnected = true) :=
  C1_connected_only_after_parse iotcInitialState ["not json at all"] "\x7b\x7d"
    "2020-06-23T15:27:33.0000000Z" "\x7b\"a\":1\x7d" "" 200
    (by
      intro x hx
      rw [List.mem_singleton] at hx
      subst hx
      rfl)
    rfl

theorem CloudState_eta_dtg (s : CloudState) (x : String) (h : s.dtgGUID = x) :
    { s with dtgGUID := x } = s := by
  cases s
  subst h
  rfl

theorem CloudState_eta_g (s : CloudState) (x : String) (h : s.gGUID = x) :
    { s with gGUID := x } = s := by
  cases s
  subst h
  rfl

theorem CloudState_eta_conn (s : CloudState) (h : s.IoTCConnected = true) :
    { s with IoTCConnected := true } = s := by
  cases s
  subst h
  rfl

/-- C6: processing a handshake message whose `"d"` object carries a session id
`t` different from the stored one writes `t` to durable storage (one new entry
in the write trace) and updates the in-memory sid; re-delivering the very same
message afterwards leaves the state — in particular the durable-storage write
trace — completely unchanged. -/
theorem C6_sid_idempotent (st : CloudState) (msg : String) (root : Json)
    (dFields : List (String × Json)) (t : String)
    (hp : json_parse_string msg = some root)
    (hd : dPropertiesOf root = some dFields)
    (hsid : jlookup dFields "sid" = some (Json.str t))
    (hdtg : jlookup dFields "dtg" = none ∨
      ∃ ds, jlookup dFields "dtg" = some (Json.str ds))
    (hg : jlookup dFields "g" = none ∨ ∃ gs, jlookup dFields "g" = some (Json.str gs))
    (htlen : t.length ≤ SID_LEN) (hstlen : st.sidString.length ≤ SID_LEN)
    (hne : t ≠ st.sidString) :
    ∃ stOut, receiveMessageCallback st msg = some stOut ∧
      stOut.sidString = t ∧ stOut.durableSID = t ∧
      stOut.sidWrites = st.sidWrites ++ [t] ∧
      receiveMessageCallback stOut msg = some stOut := by
  have hTt : strTake SID_LEN t = t := strTake_of_le SID_LEN t htlen
  have hTs : strTake SID_LEN st.sidString = st.sidString :=
    strTake_of_le SID_LEN st.sidString hstlen
  obtain ⟨st1, h1, h1sid, h1w, h1d, h1fix⟩ :
      ∃ st1, stepDtg (some dFields) st = some st1 ∧
        st1.sidString = st.sidString ∧ st1.sidWrites = st.sidWrites ∧
        st1.durableSID = st.durableSID ∧
        (∀ s : CloudState, s.dtgGUID = st1.dtgGUID →
          stepDtg (some dFields) s = some s) := by
    rcases hdtg with habs | ⟨ds, hds⟩
    · exact ⟨st, stepDtg_absent dFields st habs, rfl, rfl, rfl,
        fun s _ => stepDtg_absent dFields s habs⟩
    · refine ⟨{ st with dtgGUID := strTake GUID_LEN ds }, stepDtg_str dFields ds st hds,
        rfl, rfl, rfl, ?_⟩
      intro s hs
      rw [stepDtg_str dFields ds s hds, CloudState_eta_dtg s (strTake GUID_LEN ds) hs]
  have h2 : stepSid (some dFields) st1 = some { st1 with
      sidString := strTake SID_LEN t
      durableSID := strTake SID_LEN t
      sidWrites := st1.sidWrites ++ [strTake SID_LEN t] } := by
    apply stepSid_str_new dFields t st1 hsid
    rw [hTt, h1sid, hTs]
    exact hne
  obtain ⟨st3, h3, h3sid, h3w, h3d, h3dtg, h3fix⟩ :
      ∃ st3, stepG (some dFields) { st1 with
          sidString := strTake SID_LEN t
          durableSID := strTake SID_LEN t
          sidWrites := st1.sidWrites ++ [strTake SID_LEN t] } = some st3 ∧
        st3.sidString = strTake SID_LEN t ∧
        st3.sidWrites = st1.sidWrites ++ [strTake SID_LEN t] ∧
        st3.durableSID = strTake SID_LEN t ∧ st3.dtgGUID = st1.dtgGUID ∧
        (∀ s : CloudState, s.gGUID = st3.gGUID → stepG (some dFields) s = some s) := by
    rcases hg with habs | ⟨gs, hgs⟩
    · exact ⟨_, stepG_absent dFields _ habs, rfl, rfl, rfl, rfl,
        fun s _ => stepG_absent dFields s habs⟩
    · refine ⟨_, stepG_str dFields gs _ hgs, rfl, rfl, rfl, rfl, ?_⟩
      intro s hs
      rw [stepG_str dFields gs s hgs, CloudState_eta_g s (strTake GUID_LEN gs) hs]
  rw [← hd] at h1 h2 h3
  refine ⟨{ st3 with IoTCConnected := true },
    receiveMessageCallback_steps st msg root st1 _ st3 hp h1 h2 h3, ?_, ?_, ?_, ?_⟩
  · show st3.sidString = t
    rw [h3sid, hTt]
  · show st3.durableSID = t
    rw [h3d, hTt]
  · show st3.sidWrites = st.sidWrites ++ [t]
    rw [h3w, h1w, hTt]
  · have hfix1 : stepDtg (some dFields) { st3 with IoTCConnected := true } =
        some { st3 with IoTCConnected := true } :=
      h1fix { st3 with IoTCConnected := true } h3dtg
    have hfix2 : stepSid (some dFields) { st3 with IoTCConnected := true } =
        some { st3 with IoTCConnected := true } := by
      apply stepSid_str_same dFields t _ hsid
      show strTake SID_LEN t = strTake SID_LEN st3.sidString
      rw [h3sid, hTt]
      exact hTt.symm
    have hfix3 : stepG (some dFields) { st3 with IoTCConnected := true } =
        some { st3 with IoTCConnected := true } :=
      h3fix { st3 with IoTCConnected := true } rfl
    rw [← hd] at hfix1 hfix2 hfix3
    have hrun := receiveMessageCallback_steps { st3 with IoTCConnected := true } msg root
      _ _ _ hp hfix1 hfix2 hfix3
    rw [hrun]

theorem C6_witness :
    ∃ stOut, receiveMessageCallback
        { iotcInitialState with sidString := "OLD" }
        "\x7b\"d\":\x7b\"sid\":\"ABC\"\x7d\x7d" = some stOut ∧
      stOut.sidString = "ABC" ∧ stOut.durableSID = "ABC" ∧
      stOut.sidWrites = { iotcInitialState with sidString := "OLD" }.sidWrites ++ ["ABC"] ∧
      receiveMessageCallback stOut "\x7b\"d\":\x7b\"sid\":\"ABC\"\x7d\x7d" = some stOut :=
  C6_sid_idempotent { iotcInitialState with sidString := "OLD" }
    "\x7b\"d\":\x7b\"sid\":\"ABC\"\x7d\x7d"
    (Json.obj [("d", Json.obj [("sid", Json.str "ABC")])])
    [("sid", Json.str "ABC")] "ABC" rfl rfl rfl (Or.inl rfl) (Or.inl rfl)
    (by decide) (by decide) (by decide)

/-- C7: processing a well-formed handshake (a parsed message whose `"d"`
object carries string-valued `"sid"` and `"dtg"` fields) followed by a
successful telemetry wrap with no intervening handshake produces an envelope
whose `"sid"` and `"dtg"` fields are exactly the values just extracted from
the handshake (each truncated at its fixed buffer length). -/
theorem C7_roundTrip (st : CloudState) (msg : String) (root : Json)
    (dFields : List (String × Json)) (S D dt orig buf : String) (n : Nat)
    (hp : json_parse_string msg = some root)
    (hd : dPropertiesOf root = some dFields)
    (hsid : jlookup dFields "sid" = some (Json.str S))
    (hdtg : jlookup dFields "dtg" = some (Json.str D))
    (hg : jlookup dFields "g" = none ∨ ∃ gs, jlookup dFields "g" = some (Json.str gs))
    (hstlen : st.sidString.length ≤ SID_LEN)
    (hsize : orig.length + IOTC_TELEMETRY_OVERHEAD ≤ n) (hdtlen : dt.length ≤ 28) :
    ∃ stOut, receiveMessageCallback st msg = some stOut ∧
      stOut.sidString = strTake SID_LEN S ∧ stOut.dtgGUID = strTake GUID_LEN D ∧
      FormatTelemetryForIoTConnect stOut dt orig buf n =
        (true, IoTCTelemetryJson (strTake SID_LEN S) (strTake GUID_LEN D) dt orig,
          stOut) := by
  have hTs : strTake SID_LEN st.sidString = st.sidString :=
    strTake_of_le SID_LEN st.sidString hstlen
  have h1 : stepDtg (some dFields) st =
      some { st with dtgGUID := strTake GUID_LEN D } := stepDtg_str dFields D st hdtg
  obtain ⟨st2, h2, h2sid, h2dtg⟩ :
      ∃ st2, stepSid (some dFields) { st with dtgGUID := strTake GUID_LEN D } =
          some st2 ∧ st2.sidString = strTake SID_LEN S ∧
        st2.dtgGUID = strTake GUID_LEN D := by
    by_cases hceq : strTake SID_LEN S = strTake SID_LEN st.sidString
    · refine ⟨{ st with dtgGUID := strTake GUID_LEN D },
        stepSid_str_same dFields S _ hsid hceq, ?_, rfl⟩
      show st.sidString = strTake SID_LEN S
      rw [hceq, hTs]
    · exact ⟨_, stepSid_str_new dFields S _ hsid hceq, rfl, rfl⟩
  obtain ⟨st3, h3, h3sid, h3dtg⟩ :
      ∃ st3, stepG (some dFields) st2 = some st3 ∧
        st3.sidString = st2.sidString ∧ st3.dtgGUID = st2.dtgGUID := by
    rcases hg with habs | ⟨gs, hgs⟩
    · exact ⟨st2, stepG_absent dFields st2 habs, rfl, rfl⟩
    · exact ⟨_, stepG_str dFields gs st2 hgs, rfl, rfl⟩
  rw [← hd] at h1 h2 h3
  refine ⟨{ st3 with IoTCConnected := true },
    receiveMessageCallback_steps st msg root _ st2 st3 hp h1 h2 h3, ?_, ?_, ?_⟩
  · show st3.sidString = strTake SID_LEN S
    rw [h3sid, h2sid]
  · show st3.dtgGUID = strTake GUID_LEN D
    rw [h3dtg, h2dtg]
  · have hs : ({ st3 with IoTCConnected := true } : CloudState).sidString =
        strTake SID_LEN S := by
      show st3.sidString = strTake SID_LEN S
      rw [h3sid, h2sid]
    have hdg : ({ st3 with IoTCConnected := true } : CloudState).dtgGUID =
        strTake GUID_LEN D := by
      show st3.dtgGUID = strTake GUID_LEN D
      rw [h3dtg, h2dtg]
    have hres := FormatTelemetry_success { st3 with IoTCConnected := true } dt orig buf n
      rfl hsize (by rw [hs]; exact strTake_length_le SID_LEN S)
      (by rw [hdg]; exact strTake_length_le GUID_LEN D) hdtlen
    rw [← hs, ← hdg]
    exact hres

theorem C7_witness :
    ∃ stOut, receiveMessageCallback iotcInitialState
        "\x7b\"d\":\x7b\"sid\":\"XYZ\",\"dtg\":\"g-1\"\x7d\x7d" = some stOut ∧
      stOut.sidString = strTake SID_LEN "XYZ" ∧
      stOut.dtgGUID = strTake GUID_LEN "g-1" ∧
      FormatTelemetryForIoTConnect stOut "2020-06-23T15:27:33.0000000Z"
        "\x7b\"a\":1\x7d" "" 200 =
        (true, IoTCTelemetryJson (strTake SID_LEN "XYZ") (strTake GUID_LEN "g-1")
          "2020-06-23T15:27:33.0000000Z" "\x7b\"a\":1\x7d", stOut) :=
  C7_roundTrip iotcInitialState "\x7b\"d\":\x7b\"sid\":\"XYZ\",\"dtg\":\"g-1\"\x7d\x7d"
    (Json.obj [("d", Json.obj [("sid", Json.str "XYZ"), ("dtg", Json.str "g-1")])])
    [("sid", Json.str "XYZ"), ("dtg", Json.str "g-1")] "XYZ" "g-1"
    "2020-06-23T15:27:33.0000000Z" "\x7b\"a\":1\x7d" "" 200
    rfl rfl rfl rfl (Or.inl rfl) (by decide) (by decide) (by decide)

theorem findArrayIndexByFd_of_unique (arr : List m4_support_t) (fd : Int) (i : Nat)
    (hi : i < arr.length) (hmatch : (arr.get ⟨i, hi⟩).m4Fd = fd)
    (huniq : ∀ j (hj : j < arr.length), (arr.get ⟨j, hj⟩).m4Fd = fd → j = i) :
    findArrayIndexByFd arr fd = some i := by
  unfold findArrayIndexByFd
  have hex : ∃ x ∈ arr, (fun e => decide (e.m4Fd = fd)) x = true :=
    ⟨arr.get ⟨i, hi⟩, arr.get_mem i hi, by simpa using hmatch⟩
  rw [List.findIdx?_eq_some_of_exists hex]
  have hidx : List.findIdx (fun e => decide (e.m4Fd = fd)) arr = i := by
    rw [List.findIdx_eq hi]
    constructor
    · show decide ((arr.get ⟨i, hi⟩).m4Fd = fd) = true
      simpa using hmatch
    · intro j hji
      have hjlt : j < arr.length := Nat.lt_trans hji hi
      show decide ((arr.get ⟨j, hjlt⟩).m4Fd = fd) = false
      by_contra hcon
      rw [Bool.not_eq_false, decide_eq_true_eq] at hcon
      have := huniq j hjlt hcon
      omega
  rw [hidx]

theorem findArrayIndexByFd_none (arr : List m4_support_t) (fd : Int)
    (h : ∀ e ∈ arr, e.m4Fd ≠ fd) : findArrayIndexByFd arr fd = none := by
  unfold findArrayIndexByFd
  rw [List.findIdx?_eq_none_iff]
  intro x hx
  simp [h x hx]

theorem genericM4Handler_readSensor (cfg : BuildConfig) (st : M4State) (fd : Int)
    (rxBuf : List Nat) (hcmd : rxBuf.headD 0 = IC_READ_SENSOR) :
    genericM4Handler cfg st fd rxBuf =
      (match findArrayIndexByFd st.m4Array fd with
      | some i =>
        match st.m4Array.get? i with
        | some entry =>
          if entry.hasRawDataHandler then (st, [M4Effect.rawHook i rxBuf]) else (st, [])
        | none => (st, [])
      | none => (st, [])) := by
  unfold genericM4Handler
  rw [hcmd]
  simp [IC_READ_SENSOR, IC_READ_SENSOR_RESPOND_WITH_TELEMETRY, IC_SET_SAMPLE_RATE]

/-- C4: on a `read-sensor` response whose socket handle matches exactly one
registered descriptor, exactly that descriptor's raw-data hook is invoked with
the full received buffer unmodified (and the state is untouched); if the
matching descriptor has no raw-data hook, or no descriptor matches, no hook is
invoked and the failed lookup is silent: the handler returns with no effect
and no state change. -/
theorem C4_readSensor_routing (cfg : BuildConfig) (st : M4State) (fd : Int)
    (rxBuf : List Nat) (hcmd : rxBuf.headD 0 = IC_READ_SENSOR) :
    (∀ i (hi : i < st.m4Array.length),
      (st.m4Array.get ⟨i, hi⟩).m4Fd = fd →
      (∀ j (hj : j < st.m4Array.length), (st.m4Array.get ⟨j, hj⟩).m4Fd = fd → j = i) →
      (((st.m4Array.get ⟨i, hi⟩).hasRawDataHandler = true →
          genericM4Handler cfg st fd rxBuf = (st, [M4Effect.rawHook i rxBuf])) ∧
       ((st.m4Array.get ⟨i, hi⟩).hasRawDataHandler = false →
          genericM4Handler cfg st fd rxBuf = (st, [])))) ∧
    ((∀ e ∈ st.m4Array, e.m4Fd ≠ fd) → genericM4Handler cfg st fd rxBuf = (st, [])) := by
  rw [genericM4Handler_readSensor cfg st fd rxBuf hcmd]
  constructor
  · intro i hi hmatch huniq
    rw [findArrayIndexByFd_of_unique st.m4Array fd i hi hmatch huniq]
    simp only [List.get?_eq_get hi]
    constructor
    · intro hhook
      simp only [hhook]
      simp
    · intro hhook
      simp only [hhook]
      simp
  · intro hnone
    rw [findArrayIndexByFd_none st.m4Array fd hnone]

theorem C4_witness :
    (∀ i (hi : i < m4ExampleState.m4Array.length),
      (m4ExampleState.m4Array.get ⟨i, hi⟩).m4Fd = 8 →
      (∀ j (hj : j < m4ExampleState.m4Array.length),
        (m4ExampleState.m4Array.get ⟨j, hj⟩).m4Fd = 8 → j = i) →
      (((m4ExampleState.m4Array.get ⟨i, hi⟩).hasRawDataHandler = true →
          genericM4Handler ⟨true, true⟩ m4ExampleState 8 [2, 7, 7] =
            (m4ExampleState, [M4Effect.rawHook i [2, 7, 7]])) ∧
       ((m4ExampleState.m4Array.get ⟨i, hi⟩).hasRawDataHandler = false →
          genericM4Handler ⟨true, true⟩ m4ExampleState 8 [2, 7, 7] =
            (m4ExampleState, [])))) ∧
    ((∀ e ∈ m4ExampleState.m4Array, e.m4Fd ≠ 8) →
      genericM4Handler ⟨true, true⟩ m4ExampleState 8 [2, 7, 7] = (m4ExampleState, [])) :=
  C4_readSensor_routing ⟨true, true⟩ m4ExampleState 8 [2, 7, 7] rfl

/-- C9: a response whose command tag is none of the recognized values only
logs a warning: it raises no error and leaves the descriptor table and all
other state exactly as it was. -/
theorem C9_unknownTag_frame (cfg : BuildConfig) (st : M4State) (fd : Int)
    (rxBuf : List Nat) (h1 : rxBuf.headD 0 ≠ IC_HEARTBEAT)
    (h2 : rxBuf.headD 0 ≠ IC_READ_SENSOR)
    (h3 : rxBuf.headD 0 ≠ IC_READ_SENSOR_RESPOND_WITH_TELEMETRY)
    (h4 : rxBuf.headD 0 ≠ IC_SET_SAMPLE_RATE) :
    genericM4Handler cfg st fd rxBuf = (st, [M4Effect.logUnknownWarning]) := by
  unfold genericM4Handler
  simp at h1 h2 h3 h4
  simp [h1, h2, h3, h4]

theorem C9_witness :
    genericM4Handler ⟨true, true⟩ m4ExampleState 8 [17, 1, 2, 3] =
      (m4ExampleState, [M4Effect.logUnknownWarning]) :=
  C9_unknownTag_frame ⟨true, true⟩ m4ExampleState 8 [17, 1, 2, 3]
    (by decide) (by decide) (by decide) (by decide)

theorem genericM4Handler_telemetry (cfg : BuildConfig) (st : M4State) (fd : Int)
    (rxBuf : List Nat)
    (hcmd : rxBuf.headD 0 = IC_READ_SENSOR_RESPOND_WITH_TELEMETRY) :
    genericM4Handler cfg st fd rxBuf =
      (match json_parse_string (cString (rxBuf.drop 1)) with
      | some _ =>
        (st, M4Effect.logRx (cString (rxBuf.drop 1)) ::
          (if cfg.useIotConnect && !st.iotcConnected then []
           else if cfg.iotHubApplication then
             if cString (rxBuf.drop 1) = noGpsDataJson then [M4Effect.sendGpsSubstitute]
             else [M4Effect.sendTelemetry (cString (rxBuf.drop 1))]
           else []))
      | none => (st, [M4Effect.logParseWarning])) := by
  unfold genericM4Handler
  simp at hcmd
  simp [hcmd]

/-- The `m4ExampleState` with the telemetry response rxBuf of the C5
counterexample: command byte 3 followed by the JSON text. -/
def rxBufC5 : List Nat := [3, 123, 34, 97, 34, 58, 49, 125]

/-- C5 counterexample: for this read-sensor-with-telemetry response the code
parses the bytes starting immediately after the first byte — `&rxBuf[1]` — as
JSON, succeeds, and hands that payload to the telemetry collaborator, even
though the payload region claimed in the spec (the bytes after the one-byte
command tag and the 32-bit sample-rate field) is not parseable as JSON at all;
under the claim this message would have been logged and discarded with nothing
forwarded. -/
theorem C5_counterexample :
    genericM4Handler ⟨true, true⟩ m4ExampleState 8 rxBufC5 =
      (m4ExampleState, [M4Effect.logRx "\x7b\"a\":1\x7d",
        M4Effect.sendTelemetry "\x7b\"a\":1\x7d"]) ∧
    json_parse_string (claimPayload rxBufC5) = none ∧
    claimPayload rxBufC5 ≠ "\x7b\"a\":1\x7d" :=
  ⟨rfl, rfl, by decide⟩

/-- C5 amended: on a read-sensor-with-telemetry response the trailing bytes
starting immediately after the one-byte command tag (offset 1, overlapping the
sample-rate field region — not offset 5 as the wire-format description would
place it) are read as a NUL-terminated string and parsed as JSON.  On parse
failure the message is logged and discarded with no state change.  On parse
success (in the IoT Connect + IoT Hub build) the payload is logged and, when
the IoT Connect session is connected, handed verbatim to the
telemetry-forwarding collaborator — except for the hard-coded "no GPS data"
sentinel payload, for which a substituted location message is sent instead;
when not connected the payload is only logged.  In every case the state is
unchanged. -/
theorem C5_telemetryTag (st : M4State) (fd : Int) (rxBuf : List Nat)
    (hcmd : rxBuf.headD 0 = IC_READ_SENSOR_RESPOND_WITH_TELEMETRY) :
    (json_parse_string (cString (rxBuf.drop 1)) = none →
      genericM4Handler ⟨true, true⟩ st fd rxBuf = (st, [M4Effect.logParseWarning])) ∧
    (∀ j, json_parse_string (cString (rxBuf.drop 1)) = some j →
      ((st.iotcConnected = false →
        genericM4Handler ⟨true, true⟩ st fd rxBuf =
          (st, [M4Effect.logRx (cString (rxBuf.drop 1))])) ∧
       (st.iotcConnected = true → cString (rxBuf.drop 1) ≠ noGpsDataJson →
        genericM4Handler ⟨true, true⟩ st fd rxBuf =
          (st, [M4Effect.logRx (cString (rxBuf.drop 1)),
                M4Effect.sendTelemetry (cString (rxBuf.drop 1))])) ∧
       (st.iotcConnected = true → cString (rxBuf.drop 1) = noGpsDataJson →
        genericM4Handler ⟨true, true⟩ st fd rxBuf =
          (st, [M4Effect.logRx (cString (rxBuf.drop 1)),
                M4Effect.sendGpsSubstitute])))) := by
  rw [genericM4Handler_telemetry ⟨true, true⟩ st fd rxBuf hcmd]
  constructor
  · intro hnone
    rw [hnone]
  · intro j hsome
    rw [hsome]
    refine ⟨?_, ?_, ?_⟩
    · intro hconn
      simp [hconn]
    · intro hconn hsent
      simp [hconn, hsent]
      rw [← List.drop_one]
      exact hsent
    · intro hconn hsent
      simp [hconn, hsent]
      rw [← List.drop_one]
      exact hsent

theorem C5_witness :
    (json_parse_string (cString (rxBufC5.drop 1)) = none →
      genericM4Handler ⟨true, true⟩ m4ExampleState 8 rxBufC5 =
        (m4ExampleState, [M4Effect.logParseWarning])) ∧
    (∀ j, json_parse_string (cString (rxBufC5.drop 1)) = some j →
      ((m4ExampleState.iotcConnected = false →
        genericM4Handler ⟨true, true⟩ m4ExampleState 8 rxBufC5 =
          (m4ExampleState, [M4Effect.logRx (cString (rxBufC5.drop 1))])) ∧
       (m4ExampleState.iotcConnected = true →
        cString (rxBufC5.drop 1) ≠ noGpsDataJson →
        genericM4Handler ⟨true, true⟩ m4ExampleState 8 rxBufC5 =
          (m4ExampleState, [M4Effect.logRx (cString (rxBufC5.drop 1)),
            M4Effect.sendTelemetry (cString (rxBufC5.drop 1))])) ∧
       (m4ExampleState.iotcConnected = true →
        cString (rxBufC5.drop 1) = noGpsDataJson →
        genericM4Handler ⟨true, true⟩ m4ExampleState 8 rxBufC5 =
          (m4ExampleState, [M4Effect.logRx (cString (rxBufC5.drop 1)),
            M4Effect.sendGpsSubstitute])))) :=
  C5_telemetryTag m4ExampleState 8 rxBufC5 rfl

theorem runInits_allSuccess (rs : List Int) (h : ∀ r ∈ rs, r = ExitCode_Success) :
    runInits rs = (ExitCode_Success, rs.length) := by
  induction rs with
  | nil => rfl
  | cons r rest ih =>
    unfold runInits
    rw [if_neg (by simp [h r (by simp)])]
    rw [ih (fun x hx => h x (by simp [hx]))]
    simp

theorem runInits_firstFail (rs : List Int) (i : Nat) (hi : i < rs.length)
    (hfail : rs.get ⟨i, hi⟩ ≠ ExitCode_Success)
    (hbefore : ∀ j (hj : j < rs.length), j < i → rs.get ⟨j, hj⟩ = ExitCode_Success) :
    runInits rs = (rs.get ⟨i, hi⟩, i + 1) := by
  induction rs generalizing i with
  | nil => simp at hi
  | cons r rest ih =>
    cases i with
    | zero =>
      unfold runInits
      rw [if_pos (show r ≠ ExitCode_Success from hfail)]
      rfl
    | succ i2 =>
      have hr : r = ExitCode_Success := hbefore 0 (by simp) (by omega)
      unfold runInits
      rw [if_neg (by simp [hr])]
      have hi2 : i2 < rest.length := by
        simp at hi
        omega
      rw [ih i2 hi2 hfail
        (fun j hj hlt => hbefore (j + 1) (by simp; omega) (by omega))]
      simp

/-- C8: if the descriptor count exceeds the platform maximum, initialization
fails with the configuration error before attempting any per-descriptor init;
if the count is within the maximum and every per-descriptor init succeeds the
whole initialization succeeds (attempting each one); and a failing descriptor
init aborts immediately with that descriptor's error, the descriptors after
it never being attempted. -/
theorem C8_initFailFast (initResults : List Int) :
    (initResults.length > MAX_REAL_TIME_APPS →
      InitM4Interfaces initResults = (ExitCode_Init_Invalid_Number_Real_Time_Apps, 0)) ∧
    (initResults.length ≤ MAX_REAL_TIME_APPS →
      ((∀ r ∈ initResults, r = ExitCode_Success) →
        InitM4Interfaces initResults = (ExitCode_Success, initResults.length)) ∧
      (∀ i (hi : i < initResults.length),
        initResults.get ⟨i, hi⟩ ≠ ExitCode_Success →
        (∀ j (hj : j < initResults.length), j < i →
          initResults.get ⟨j, hj⟩ = ExitCode_Success) →
        InitM4Interfaces initResults = (initResults.get ⟨i, hi⟩, i + 1))) := by
  constructor
  · intro hover
    unfold InitM4Interfaces
    rw [if_pos hover]
  · intro hle
    constructor
    · intro hall
      unfold InitM4Interfaces
      rw [if_neg (by omega)]
      exact runInits_allSuccess initResults hall
    · intro i hi hfail hbefore
      unfold InitM4Interfaces
      rw [if_neg (by omega)]
      exact runInits_firstFail initResults i hi hfail hbefore

theorem C8_witness :
    (([0, 5] : List Int).length > MAX_REAL_TIME_APPS →
      InitM4Interfaces [0, 5] = (ExitCode_Init_Invalid_Number_Real_Time_Apps, 0)) ∧
    (([0, 5] : List Int).length ≤ MAX_REAL_TIME_APPS →
      ((∀ r ∈ ([0, 5] : List Int), r = ExitCode_Success) →
        InitM4Interfaces [0, 5] = (ExitCode_Success, ([0, 5] : List Int).length)) ∧
      (∀ i (hi : i < ([0, 5] : List Int).length),
        ([0, 5] : List Int).get ⟨i, hi⟩ ≠ ExitCode_Success →
        (∀ j (hj : j < ([0, 5] : List Int).length), j < i →
          ([0, 5] : List Int).get ⟨j, hj⟩ = ExitCode_Success) →
        InitM4Interfaces [0, 5] = (([0, 5] : List Int).get ⟨i, hi⟩, i + 1))) :=
  C8_initFailFast [0, 5]
